import Mathlib

/-!
Verification of the `risky` RISC-V core (Python/Amaranth sources) against its
natural-language specification.  The definitions below are a shallow embedding
of the hardware described in `src/risky/cpu.py`, `src/risky/memory.py`,
`src/risky/ormux_cpu.py` and `src/risky/soc.py`: 32-bit signals become `Nat`
values reduced `% 2^32`, signed interpretation goes through `Int`, and each
clock tick becomes an explicit step function on a state record.
-/

namespace Risky

/-- Bit reversal of the low `n` bits of `x` (Amaranth slice `[::-1]`). -/
def revBits : Nat → Nat → Nat
  | 0, _ => 0
  | n + 1, x => (x % 2) * 2 ^ n + revBits n (x / 2)

theorem revBits_lt (n x : Nat) : revBits n x < 2 ^ n := by
  induction n generalizing x with
  | zero => simp [revBits]
  | succ n ih =>
    have h := ih (x / 2)
    have hx : x % 2 ≤ 1 := Nat.le_of_lt_succ (Nat.mod_lt _ (by norm_num))
    have : (x % 2) * 2 ^ n ≤ 2 ^ n := by
      calc (x % 2) * 2 ^ n ≤ 1 * 2 ^ n := Nat.mul_le_mul_right _ hx
        _ = 2 ^ n := Nat.one_mul _
    calc (x % 2) * 2 ^ n + revBits n (x / 2) < (x % 2) * 2 ^ n + 2 ^ n := by omega
      _ ≤ 2 ^ n + 2 ^ n := by omega
      _ = 2 ^ (n + 1) := by ring

theorem testBit_revBits (n x i : Nat) :
    (revBits n x).testBit i = if i < n then x.testBit (n - 1 - i) else false := by
  induction n generalizing x i with
  | zero => simp [revBits]
  | succ n ih =>
    have hlt : revBits n (x / 2) < 2 ^ n := revBits_lt n (x / 2)
    have hcomm : (x % 2) * 2 ^ n = 2 ^ n * (x % 2) := Nat.mul_comm _ _
    rw [revBits, hcomm, Nat.testBit_mul_pow_two_add _ hlt]
    by_cases h : i < n
    · simp only [h, if_pos, ih]
      have : i < n + 1 := by omega
      simp only [this, if_pos]
      have : n + 1 - 1 - i = (n - 1 - i) + 1 := by omega
      rw [this, Nat.testBit_add_one]
    · simp only [h, if_neg]
      by_cases h2 : i = n
      · have hi : i - n = 0 := by omega
        have hlt1 : i < n + 1 := by omega
        have hn1 : n + 1 - 1 - i = 0 := by omega
        have hmm : x % 2 % 2 = x % 2 := Nat.mod_mod_of_dvd x dvd_rfl
        have hni : n - i = 0 := by omega
        simp [h, hi, hlt1, hn1, hni, Nat.testBit_zero, hmm]
      · have hge : ¬ i < n + 1 := by omega
        simp only [hge, if_neg]
        have : i - n ≠ 0 := by omega
        rcases Nat.exists_eq_succ_of_ne_zero this with ⟨k, hk⟩
        have hik : i - n = k + 1 := hk
        rw [hik, Nat.testBit_add_one]
        have : x % 2 / 2 = 0 := by omega
        rw [this]
        exact Nat.zero_testBit k

/-- Two's-complement reading of an `w`-bit pattern. -/
def toSigned (w x : Nat) : Int :=
  if x.testBit (w - 1) then (x : Int) - 2 ^ w else (x : Int)

/-!
## ALU (`src/risky/cpu.py`, class `Alu`)

`minus` is the `xlen+1 = 33`-bit subtraction intermediate
(`in1.as_unsigned() - in2.as_unsigned()` truncated to 33 bits), `eq`/`ltu`/`lt`
are derived from it exactly as in `Alu.elaborate`, and the shared shifter
implements `Cat(shift_in, (op == SHIFT_RA) & shift_in[-1]).as_signed() >>
shift_amount` with left shifts served through bit reversal.
-/

inductive AluOp where
  | add | sub | shiftLL | shiftRL | shiftRA | lt | ltu | eq | xorOp | orOp | andOp
  deriving DecidableEq, Repr

/-- 33-bit wrapped difference `in1 - in2` (signal `self.minus`). -/
def aluMinus (in1 in2 : Nat) : Nat := (in1 + 2 ^ 33 - in2 % 2 ^ 33) % 2 ^ 33

/-- `self.eq`: low 32 bits of `minus` are all zero. -/
def aluEqBit (in1 in2 : Nat) : Bool := aluMinus in1 in2 % 2 ^ 32 == 0

/-- `self.ltu`: borrow bit (bit 32) of `minus`. -/
def aluLtuBit (in1 in2 : Nat) : Bool := (aluMinus in1 in2).testBit 32

/-- `self.lt`: sign-aware comparison mux. -/
def aluLtBit (in1 in2 : Nat) : Bool :=
  if in1.testBit 31 ≠ in2.testBit 31 then in1.testBit 31 else (aluMinus in1 in2).testBit 32

/-- The shared right-shifter: 33-bit pattern of
`Cat(shift_in, (op == SHIFT_RA) & shift_in[-1]).as_signed() >> shift_amount`;
the two mux selects `op == SHIFT_LL` and `op == SHIFT_RA` are passed as the
booleans `isLL` and `isRA`. -/
def aluShifter (isLL isRA : Bool) (in1 shamt : Nat) : Nat :=
  let sIn := if isLL then revBits 32 in1 else in1 % 2 ^ 32
  let catV := sIn + (if isRA && sIn.testBit 31 then 2 ^ 32 else 0)
  let sgnV : Int := toSigned 33 catV
  ((sgnV / 2 ^ shamt) % (2 ^ 33 : Int)).toNat

/-- ALU output (`Alu.elaborate`'s final switch, 32-bit `out` signal). -/
def aluOut (op : AluOp) (in1 in2 shamt : Nat) : Nat :=
  match op with
  | .add => (in1 + in2) % 2 ^ 32
  | .sub => aluMinus in1 in2 % 2 ^ 32
  | .shiftLL => revBits 32 (aluShifter true false in1 shamt % 2 ^ 32)
  | .shiftRL => aluShifter false false in1 shamt % 2 ^ 32
  | .shiftRA => aluShifter false true in1 shamt % 2 ^ 32
  | .lt => if aluLtBit in1 in2 then 1 else 0
  | .ltu => if aluLtuBit in1 in2 then 1 else 0
  | .eq => if aluEqBit in1 in2 then 1 else 0
  | .xorOp => (in1 ^^^ in2) % 2 ^ 32
  | .orOp => (in1 ||| in2) % 2 ^ 32
  | .andOp => (in1 &&& in2) % 2 ^ 32

/-- Reference ALU semantics, following the words of spec section 4.4. -/
def refAlu (op : AluOp) (in1 in2 shamt : Nat) : Nat :=
  match op with
  | .add => (in1 + in2) % 2 ^ 32
  | .sub => (((in1 : Int) - (in2 : Int)) % (2 ^ 32 : Int)).toNat
  | .shiftLL => (in1 <<< (shamt % 32)) % 2 ^ 32
  | .shiftRL => (in1 % 2 ^ 32) >>> (shamt % 32)
  | .shiftRA => ((toSigned 32 in1 / 2 ^ (shamt % 32)) % (2 ^ 32 : Int)).toNat
  | .lt => if toSigned 32 in1 < toSigned 32 in2 then 1 else 0
  | .ltu => if in1 < in2 then 1 else 0
  | .eq => if in1 = in2 then 1 else 0
  | .xorOp => in1 ^^^ in2
  | .orOp => in1 ||| in2
  | .andOp => in1 &&& in2

theorem aluOut_sub_ok (in1 in2 s : Nat) (h1 : in1 < 2 ^ 32) (h2 : in2 < 2 ^ 32) :
    aluOut AluOp.sub in1 in2 s = refAlu AluOp.sub in1 in2 s := by
  simp only [aluOut, refAlu, aluMinus]
  omega

theorem aluOut_ltu_ok (in1 in2 s : Nat) (h1 : in1 < 2 ^ 32) (h2 : in2 < 2 ^ 32) :
    aluOut AluOp.ltu in1 in2 s = refAlu AluOp.ltu in1 in2 s := by
  simp only [aluOut, refAlu, aluLtuBit, aluMinus, Nat.testBit_to_div_mod, decide_eq_true_eq]
  split_ifs <;> omega

theorem aluOut_eq_ok (in1 in2 s : Nat) (h1 : in1 < 2 ^ 32) (h2 : in2 < 2 ^ 32) :
    aluOut AluOp.eq in1 in2 s = refAlu AluOp.eq in1 in2 s := by
  simp only [aluOut, refAlu, aluEqBit, aluMinus, beq_iff_eq]
  split_ifs <;> omega

theorem aluOut_lt_ok (in1 in2 s : Nat) (h1 : in1 < 2 ^ 32) (h2 : in2 < 2 ^ 32) :
    aluOut AluOp.lt in1 in2 s = refAlu AluOp.lt in1 in2 s := by
  simp only [aluOut, refAlu, aluLtBit, aluMinus, toSigned, Nat.testBit_to_div_mod,
    show (32 : Nat) - 1 = 31 from rfl]
  by_cases hA : in1 / 2 ^ 31 % 2 = 1 <;> by_cases hB : in2 / 2 ^ 31 % 2 = 1 <;>
    simp [hA, hB] <;> split_ifs <;> omega

theorem int_emod_collapse (q : Int) : (q % (2 ^ 33 : Int)).toNat % 2 ^ 32 = (q % (2 ^ 32 : Int)).toNat := by
  omega

theorem aluOut_shiftRL_ok (in1 in2 s : Nat) (h1 : in1 < 2 ^ 32) (hs : s < 32) :
    aluOut AluOp.shiftRL in1 in2 s = refAlu AluOp.shiftRL in1 in2 s := by
  have hmod : in1 % 2 ^ 32 = in1 := Nat.mod_eq_of_lt h1
  have hsm : s % 32 = s := Nat.mod_eq_of_lt hs
  simp only [aluOut, refAlu, aluShifter, hmod, hsm, Bool.false_and, Bool.false_eq_true,
    if_false, Nat.add_zero]
  have hbit : in1.testBit 32 = false := Nat.testBit_lt_two_pow (by omega)
  simp only [toSigned, show (33 : Nat) - 1 = 32 from rfl, hbit, Bool.false_eq_true, if_false]
  have hdiv : ((in1 : Int) / 2 ^ s) = ((in1 / 2 ^ s : Nat) : Int) := by
    rw [Int.ofNat_ediv]; norm_num
  rw [hdiv]
  have hle : in1 / 2 ^ s ≤ in1 := Nat.div_le_self _ _
  have hlt : ((in1 / 2 ^ s : Nat) : Int) < 2 ^ 33 := by omega
  rw [Int.emod_eq_of_lt (by positivity) hlt]
  rw [Nat.shiftRight_eq_div_pow]
  have h2 : in1 / 2 ^ s < 2 ^ 32 := lt_of_le_of_lt hle h1
  generalize in1 / 2 ^ s = q at h2 ⊢
  omega

theorem aluOut_shiftRA_ok (in1 in2 s : Nat) (h1 : in1 < 2 ^ 32) (hs : s < 32) :
    aluOut AluOp.shiftRA in1 in2 s = refAlu AluOp.shiftRA in1 in2 s := by
  have hmod : in1 % 2 ^ 32 = in1 := Nat.mod_eq_of_lt h1
  have hsm : s % 32 = s := Nat.mod_eq_of_lt hs
  simp only [aluOut, refAlu, aluShifter, toSigned, hmod, hsm, Bool.false_eq_true, if_false,
    show (33 : Nat) - 1 = 32 from rfl, show (32 : Nat) - 1 = 31 from rfl, Bool.true_and]
  by_cases hb : in1.testBit 31
  · -- negative operand: 33-bit pattern picks up the sign bit
    have hge : in1 ≥ 2 ^ 31 := by
      have := Nat.testBit_to_div_mod (x := in1) (i := 31)
      rw [this] at hb
      simp at hb
      omega
    have hbit32 : (in1 + 2 ^ 32).testBit 32 = true := by
      rw [Nat.testBit_to_div_mod]
      simp
      omega
    simp only [hb, if_true, hbit32]
    have hval : ((in1 + 2 ^ 32 : Nat) : Int) - 2 ^ 33 = (in1 : Int) - 2 ^ 32 := by
      push_cast; ring
    rw [hval, int_emod_collapse]
  · have hlt31 : in1 < 2 ^ 31 := by
      by_contra hcon
      have : in1.testBit 31 = true := by
        rw [Nat.testBit_to_div_mod]
        simp
        omega
      simp [this] at hb
    simp only [Bool.not_eq_true] at hb
    simp only [hb, Bool.false_eq_true, if_false, Nat.add_zero]
    have hbit32 : in1.testBit 32 = false := Nat.testBit_lt_two_pow (by omega)
    simp only [hbit32, Bool.false_eq_true, if_false]
    rw [int_emod_collapse]

theorem aluOut_shiftLL_ok (in1 in2 s : Nat) (h1 : in1 < 2 ^ 32) (hs : s < 32) :
    aluOut AluOp.shiftLL in1 in2 s = refAlu AluOp.shiftLL in1 in2 s := by
  have hsm : s % 32 = s := Nat.mod_eq_of_lt hs
  simp only [aluOut, refAlu, aluShifter, hsm, Bool.false_and, Bool.false_eq_true, if_false,
    if_true, Nat.add_zero]
  have hrevlt : revBits 32 in1 < 2 ^ 32 := revBits_lt 32 in1
  have hbit : (revBits 32 in1).testBit 32 = false := Nat.testBit_lt_two_pow (by omega)
  simp only [toSigned, show (33 : Nat) - 1 = 32 from rfl, hbit, Bool.false_eq_true, if_false]
  have hdiv : ((revBits 32 in1 : Nat) : Int) / 2 ^ s = ((revBits 32 in1 / 2 ^ s : Nat) : Int) := by
    rw [Int.ofNat_ediv]; norm_num
  rw [hdiv]
  have hlt : ((revBits 32 in1 / 2 ^ s : Nat) : Int) < 2 ^ 33 := by
    have : revBits 32 in1 / 2 ^ s ≤ revBits 32 in1 := Nat.div_le_self _ _
    omega
  rw [Int.emod_eq_of_lt (by positivity) hlt]
  have hq : (((revBits 32 in1 / 2 ^ s : Nat) : Int)).toNat = revBits 32 in1 / 2 ^ s :=
    Int.toNat_ofNat _
  rw [hq]
  have hqlt : revBits 32 in1 / 2 ^ s < 2 ^ 32 := by
    have : revBits 32 in1 / 2 ^ s ≤ revBits 32 in1 := Nat.div_le_self _ _
    omega
  rw [Nat.mod_eq_of_lt hqlt]
  rw [← Nat.shiftRight_eq_div_pow]
  -- bit-reversal turns the shared right shift into the logical left shift
  apply Nat.eq_of_testBit_eq
  intro i
  rw [testBit_revBits]
  by_cases hi : i < 32
  · simp only [hi, if_pos, Nat.testBit_shiftRight, testBit_revBits, Nat.testBit_mod_two_pow,
      Nat.testBit_shiftLeft]
    by_cases hsi : s ≤ i
    · have hc : s + (32 - 1 - i) < 32 := by omega
      have hidx : 32 - 1 - (s + (32 - 1 - i)) = i - s := by omega
      simp only [hc, if_pos, hidx]
      have : i ≥ s := hsi
      simp [hi, this]
    · have hc : ¬ (s + (32 - 1 - i) < 32) := by omega
      simp only [hc, if_neg]
      have : ¬ i ≥ s := hsi
      simp [hi, this]
  · simp only [hi, if_neg, Nat.testBit_mod_two_pow]
    simp [hi]

/-- C1: for all 32-bit inputs and every ALU op, the output of the shared
subtractor / shared right-shifter implementation in `Alu.elaborate`
equals the reference semantics of spec section 4.4. -/
theorem C1_alu_matches_spec (op : AluOp) (in1 in2 shamt : Nat)
    (h1 : in1 < 2 ^ 32) (h2 : in2 < 2 ^ 32) (hs : shamt < 32) :
    aluOut op in1 in2 shamt = refAlu op in1 in2 shamt := by
  cases op with
  | add => rfl
  | sub => exact aluOut_sub_ok in1 in2 shamt h1 h2
  | shiftLL => exact aluOut_shiftLL_ok in1 in2 shamt h1 hs
  | shiftRL => exact aluOut_shiftRL_ok in1 in2 shamt h1 hs
  | shiftRA => exact aluOut_shiftRA_ok in1 in2 shamt h1 hs
  | lt => exact aluOut_lt_ok in1 in2 shamt h1 h2
  | ltu => exact aluOut_ltu_ok in1 in2 shamt h1 h2
  | eq => exact aluOut_eq_ok in1 in2 shamt h1 h2
  | xorOp => simp [aluOut, refAlu, Nat.mod_eq_of_lt (Nat.xor_lt_two_pow h1 h2)]
  | orOp => simp [aluOut, refAlu, Nat.mod_eq_of_lt (Nat.or_lt_two_pow h1 h2)]
  | andOp => simp [aluOut, refAlu, Nat.mod_eq_of_lt (Nat.and_lt_two_pow _ h2)]

/-- Witness for C1 at the spec's boundary pair: `LTU (0xFFFFFFFF, 0) = 0`
while `LT (0xFFFFFFFF, 0) = 1`. -/
theorem C1_alu_matches_spec_witness :
    aluOut AluOp.ltu 4294967295 0 0 = 0 ∧ aluOut AluOp.lt 4294967295 0 0 = 1 :=
  ⟨(C1_alu_matches_spec AluOp.ltu 4294967295 0 0 (by norm_num) (by norm_num) (by norm_num)).trans
      (by decide),
   (C1_alu_matches_spec AluOp.lt 4294967295 0 0 (by norm_num) (by norm_num) (by norm_num)).trans
      (by decide)⟩

/-!
## Load datapath (`src/risky/cpu.py`, `Cpu.execute`, `Op.LOAD` case)
-/

/-- `Funct3Mem` raw encodings. -/
def f3Byte : Nat := 0
def f3Half : Nat := 1
def f3Word : Nat := 2
def f3ByteU : Nat := 4
def f3HalfU : Nat := 5
/-- Byte-lane expansion of the 4-bit `sel`
(`Cat(*(sel.replicate(8) for sel in self.bus.sel))`). -/
def selMask (sel : Nat) : Nat :=
  (if sel.testBit 0 then 255 else 0) |||
  ((if sel.testBit 1 then 255 else 0) <<< 8) |||
  ((if sel.testBit 2 then 255 else 0) <<< 16) |||
  ((if sel.testBit 3 then 255 else 0) <<< 24)
/-- `bus.sel` driven by the LOAD funct3 switch (falling back to the CPU comb
default `0b1111` when no case matches). -/
def loadSel (f3 a : Nat) : Nat :=
  if f3 = f3Byte ∨ f3 = f3ByteU then 1 <<< a
  else if f3 = f3Half ∨ f3 = f3HalfU then 3 <<< (a &&& 2)
  else 15
/-- The byte shift applied to the acked word (`shift` in the LOAD case). -/
def loadShift (f3 a : Nat) : Nat :=
  (if f3 = f3Word then 0 else a) &&& (if f3 = f3Half ∨ f3 = f3HalfU then 2 else 3)
/-- The shift / mask / sign-extension datapath applied to the acked bus word
(`data`, `mask`, `sign` in the `Op.LOAD` case of `Cpu.execute`). -/
def loadData (f3 a datR sel : Nat) : Nat :=
  let d1 := (datR % 2 ^ 32) >>> (loadShift f3 a * 8)
  let mask := selMask sel >>> (loadShift f3 a * 8)
  let d2 := d1 &&& mask
  let sign := if f3 = f3Byte then d2.testBit 7
    else if f3 = f3Half then d2.testBit 15 else false
  d2 ||| (((2 ^ 32 - 1) ^^^ mask) &&& (if sign then 2 ^ 32 - 1 else 0))
/-- Reference load semantics in the words of the spec: shift by `a`
(`BYTE`/`BYTE_U`), `a & 0b10` (`HALF`/`HALF_U`) or `0` (`WORD`) bytes, mask to
the access width, then replicate bit 7 / bit 15 across the high bits for the
signed variants and zero-fill for the unsigned ones. -/
def refLoad (f3 a datR : Nat) : Nat :=
  let shift := if f3 = f3Word then 0
    else if f3 = f3Half ∨ f3 = f3HalfU then a &&& 2 else a
  let width := if f3 = f3Byte ∨ f3 = f3ByteU then 2 ^ 8 - 1
    else if f3 = f3Half ∨ f3 = f3HalfU then 2 ^ 16 - 1 else 2 ^ 32 - 1
  let w := (datR >>> (shift * 8)) &&& width
  if f3 = f3Byte ∧ w.testBit 7 then w ||| (2 ^ 32 - 2 ^ 8)
  else if f3 = f3Half ∧ w.testBit 15 then w ||| (2 ^ 32 - 2 ^ 16)
  else w

theorem maskFact_0_0 : selMask (loadSel 0 0) >>> (0 * 8) = 255 := by decide
theorem shiftFact_0_0 : loadShift 0 0 = 0 := by decide
theorem maskFact_0_1 : selMask (loadSel 0 1) >>> (1 * 8) = 255 := by decide
theorem shiftFact_0_1 : loadShift 0 1 = 1 := by decide
theorem maskFact_0_2 : selMask (loadSel 0 2) >>> (2 * 8) = 255 := by decide
theorem shiftFact_0_2 : loadShift 0 2 = 2 := by decide
theorem maskFact_0_3 : selMask (loadSel 0 3) >>> (3 * 8) = 255 := by decide
theorem shiftFact_0_3 : loadShift 0 3 = 3 := by decide
theorem maskFact_1_0 : selMask (loadSel 1 0) >>> (0 * 8) = 65535 := by decide
theorem shiftFact_1_0 : loadShift 1 0 = 0 := by decide
theorem maskFact_1_1 : selMask (loadSel 1 1) >>> (0 * 8) = 65535 := by decide
theorem shiftFact_1_1 : loadShift 1 1 = 0 := by decide
theorem maskFact_1_2 : selMask (loadSel 1 2) >>> (2 * 8) = 65535 := by decide
theorem shiftFact_1_2 : loadShift 1 2 = 2 := by decide
theorem maskFact_1_3 : selMask (loadSel 1 3) >>> (2 * 8) = 65535 := by decide
theorem shiftFact_1_3 : loadShift 1 3 = 2 := by decide
theorem maskFact_2_0 : selMask (loadSel 2 0) >>> (0 * 8) = 4294967295 := by decide
theorem shiftFact_2_0 : loadShift 2 0 = 0 := by decide
theorem maskFact_2_1 : selMask (loadSel 2 1) >>> (0 * 8) = 4294967295 := by decide
theorem shiftFact_2_1 : loadShift 2 1 = 0 := by decide
theorem maskFact_2_2 : selMask (loadSel 2 2) >>> (0 * 8) = 4294967295 := by decide
theorem shiftFact_2_2 : loadShift 2 2 = 0 := by decide
theorem maskFact_2_3 : selMask (loadSel 2 3) >>> (0 * 8) = 4294967295 := by decide
theorem shiftFact_2_3 : loadShift 2 3 = 0 := by decide
theorem maskFact_4_0 : selMask (loadSel 4 0) >>> (0 * 8) = 255 := by decide
theorem shiftFact_4_0 : loadShift 4 0 = 0 := by decide
theorem maskFact_4_1 : selMask (loadSel 4 1) >>> (1 * 8) = 255 := by decide
theorem shiftFact_4_1 : loadShift 4 1 = 1 := by decide
theorem maskFact_4_2 : selMask (loadSel 4 2) >>> (2 * 8) = 255 := by decide
theorem shiftFact_4_2 : loadShift 4 2 = 2 := by decide
theorem maskFact_4_3 : selMask (loadSel 4 3) >>> (3 * 8) = 255 := by decide
theorem shiftFact_4_3 : loadShift 4 3 = 3 := by decide
theorem maskFact_5_0 : selMask (loadSel 5 0) >>> (0 * 8) = 65535 := by decide
theorem shiftFact_5_0 : loadShift 5 0 = 0 := by decide
theorem maskFact_5_1 : selMask (loadSel 5 1) >>> (0 * 8) = 65535 := by decide
theorem shiftFact_5_1 : loadShift 5 1 = 0 := by decide
theorem maskFact_5_2 : selMask (loadSel 5 2) >>> (2 * 8) = 65535 := by decide
theorem shiftFact_5_2 : loadShift 5 2 = 2 := by decide
theorem maskFact_5_3 : selMask (loadSel 5 3) >>> (2 * 8) = 65535 := by decide
theorem shiftFact_5_3 : loadShift 5 3 = 2 := by decide
theorem powFact_b : (2 ^ 8 - 1 : Nat) = 255 := by norm_num
theorem powFact_h : (2 ^ 16 - 1 : Nat) = 65535 := by norm_num
theorem powFact_w : (2 ^ 32 - 1 : Nat) = 4294967295 := by norm_num
theorem powFact_sb : (2 ^ 32 - 2 ^ 8 : Nat) = 4294967040 := by norm_num
theorem powFact_sh : (2 ^ 32 - 2 ^ 16 : Nat) = 4294901760 := by norm_num
theorem xorFact_b : ((4294967295 : Nat) ^^^ 255) = 4294967040 := by decide
theorem xorFact_h : ((4294967295 : Nat) ^^^ 65535) = 4294901760 := by decide
theorem xorFact_w : ((4294967295 : Nat) ^^^ 4294967295) = 0 := by decide
theorem andFact_b : ((4294967040 : Nat) &&& 4294967295) = 4294967040 := by decide
theorem andFact_h : ((4294901760 : Nat) &&& 4294967295) = 4294901760 := by decide
theorem andSmall_0_2 : ((0 : Nat) &&& 2) = 0 := by decide
theorem andSmall_1_2 : ((1 : Nat) &&& 2) = 0 := by decide
theorem andSmall_2_2 : ((2 : Nat) &&& 2) = 2 := by decide
theorem andSmall_3_2 : ((3 : Nat) &&& 2) = 2 := by decide

set_option maxHeartbeats 1000000 in
/-- C2: for every LOAD with effective-address low bits `a` and funct3 in
{BYTE, HALF, WORD, BYTE_U, HALF_U}, the value written back to `rd` is the
acked bus word shifted right by `8*shift` bits, masked to the access width,
then sign-extended (BYTE/HALF) or zero-filled (BYTE_U/HALF_U/WORD). -/
theorem C2_load_extraction (f3 a datR : Nat)
    (hf : f3 = f3Byte ∨ f3 = f3Half ∨ f3 = f3Word ∨ f3 = f3ByteU ∨ f3 = f3HalfU)
    (ha : a < 4) (hd : datR < 2 ^ 32) :
    loadData f3 a datR (loadSel f3 a) = refLoad f3 a datR := by
  have hmod : datR % 2 ^ 32 = datR := Nat.mod_eq_of_lt hd
  rcases hf with rfl | rfl | rfl | rfl | rfl <;> interval_cases a <;>
    simp only [loadData, refLoad, f3Byte, f3Half, f3Word, f3ByteU, f3HalfU, hmod,
      maskFact_0_0, shiftFact_0_0, maskFact_0_1, shiftFact_0_1, maskFact_0_2, shiftFact_0_2, maskFact_0_3, shiftFact_0_3, maskFact_1_0, shiftFact_1_0, maskFact_1_1, shiftFact_1_1, maskFact_1_2, shiftFact_1_2, maskFact_1_3, shiftFact_1_3, maskFact_2_0, shiftFact_2_0, maskFact_2_1, shiftFact_2_1, maskFact_2_2, shiftFact_2_2, maskFact_2_3, shiftFact_2_3, maskFact_4_0, shiftFact_4_0, maskFact_4_1, shiftFact_4_1, maskFact_4_2, shiftFact_4_2, maskFact_4_3, shiftFact_4_3, maskFact_5_0, shiftFact_5_0, maskFact_5_1, shiftFact_5_1, maskFact_5_2, shiftFact_5_2, maskFact_5_3, shiftFact_5_3, powFact_b, powFact_h, powFact_w, powFact_sb, powFact_sh, xorFact_b, xorFact_h, xorFact_w, andSmall_0_2, andSmall_1_2, andSmall_2_2, andSmall_3_2,
      reduceIte, Nat.reduceEqDiff, Bool.false_eq_true, true_and, false_and, true_or, or_true, false_or, or_false] <;>
    (try split_ifs) <;>
    simp only [andFact_b, andFact_h, Nat.and_zero, Nat.or_zero]

/-- Witness for C2: the spec scenario word `0x12 0x34 0xD6 0xF8` (little-endian
word `0xF8D63412`) loaded with LB at offsets 2 and 3 gives `0xFFFFFFD6` and
`0xFFFFFFF8`. -/
theorem C2_load_extraction_witness :
    loadData 0 2 4174783506 (loadSel 0 2) = 4294967254 ∧
    loadData 0 3 4174783506 (loadSel 0 3) = 4294967288 :=
  ⟨(C2_load_extraction 0 2 4174783506 (Or.inl rfl) (by norm_num) (by norm_num)).trans (by decide),
   (C2_load_extraction 0 3 4174783506 (Or.inl rfl) (by norm_num) (by norm_num)).trans (by decide)⟩

/-!
## Zicsr (`src/risky/cpu.py`, `Zicsr.execute` and `Zicsr.elaborate_pre`)
-/

/-- Outputs of the CSR execute step relevant to claim C3. -/
structure CsrEffect where
  readEn : Bool
  writeEn : Bool
  writeData : Nat
  rdWriteEn : Bool
  rdData : Nat
  deriving Repr, DecidableEq

/-- The `elaborate_pre` mini-alu: `csr_write_data =
Mux(setbits, new | old, ~new & old)` with `old = Mux(modify, csr_read_data, 0)`. -/
def csrWriteData (modify setbits : Bool) (newv readData : Nat) : Nat :=
  let old := if modify then readData % 2 ^ 32 else 0
  (if setbits then (newv % 2 ^ 32) ||| old
   else ((2 ^ 32 - 1) ^^^ (newv % 2 ^ 32)) &&& old) % 2 ^ 32

/-- `Zicsr.execute`: strobes and data for each funct3 CSR mode.  `rdIdx` and
`rs1Idx` are the 5-bit register fields, `rs1Val` the latched rs1 value,
`readData` the CSR bus read data.  Funct3 values outside the six modes leave
the comb defaults (no strobes, no rd write). -/
def csrExecute (f3 rdIdx rs1Idx rs1Val readData : Nat) : CsrEffect :=
  let uimm := rs1Idx % 32
  if f3 = 1 then  -- RW
    { readEn := decide (rdIdx % 32 ≠ 0), writeEn := true,
      writeData := csrWriteData false true rs1Val readData,
      rdWriteEn := true, rdData := readData }
  else if f3 = 2 then  -- RS
    { readEn := true, writeEn := decide (rs1Idx % 32 ≠ 0),
      writeData := csrWriteData true true rs1Val readData,
      rdWriteEn := true, rdData := readData }
  else if f3 = 3 then  -- RC
    { readEn := true, writeEn := decide (rs1Idx % 32 ≠ 0),
      writeData := csrWriteData true false rs1Val readData,
      rdWriteEn := true, rdData := readData }
  else if f3 = 5 then  -- RWI
    { readEn := decide (rdIdx % 32 ≠ 0), writeEn := true,
      writeData := csrWriteData false true uimm readData,
      rdWriteEn := true, rdData := readData }
  else if f3 = 6 then  -- RSI
    { readEn := true, writeEn := decide (uimm ≠ 0),
      writeData := csrWriteData true true uimm readData,
      rdWriteEn := true, rdData := readData }
  else if f3 = 7 then  -- RCI
    { readEn := true, writeEn := decide (uimm ≠ 0),
      writeData := csrWriteData true false uimm readData,
      rdWriteEn := true, rdData := readData }
  else
    { readEn := false, writeEn := false, writeData := 0, rdWriteEn := false, rdData := readData }

/-- The section 4.7 table, written out literally. -/
def refCsr (f3 rdIdx rs1Idx rs1Val readData : Nat) : CsrEffect :=
  let uimm := rs1Idx % 32
  if f3 = 1 then
    { readEn := decide (rdIdx % 32 ≠ 0), writeEn := true, writeData := rs1Val,
      rdWriteEn := true, rdData := readData }
  else if f3 = 2 then
    { readEn := true, writeEn := decide (rs1Idx % 32 ≠ 0),
      writeData := readData ||| rs1Val, rdWriteEn := true, rdData := readData }
  else if f3 = 3 then
    { readEn := true, writeEn := decide (rs1Idx % 32 ≠ 0),
      writeData := readData &&& ((2 ^ 32 - 1) ^^^ rs1Val),
      rdWriteEn := true, rdData := readData }
  else if f3 = 5 then
    { readEn := decide (rdIdx % 32 ≠ 0), writeEn := true, writeData := uimm,
      rdWriteEn := true, rdData := readData }
  else if f3 = 6 then
    { readEn := true, writeEn := decide (uimm ≠ 0),
      writeData := readData ||| uimm, rdWriteEn := true, rdData := readData }
  else if f3 = 7 then
    { readEn := true, writeEn := decide (uimm ≠ 0),
      writeData := readData &&& ((2 ^ 32 - 1) ^^^ uimm),
      rdWriteEn := true, rdData := readData }
  else
    { readEn := false, writeEn := false, writeData := 0, rdWriteEn := false, rdData := readData }

/-- C3: for each of the six CSR funct3 modes the read strobe, write strobe,
written value and rd writeback of `Zicsr.execute` follow the section 4.7
table exactly. -/
theorem C3_csr_modes (f3 rdIdx rs1Idx rs1Val readData : Nat)
    (h1 : rs1Val < 2 ^ 32) (h2 : readData < 2 ^ 32) :
    csrExecute f3 rdIdx rs1Idx rs1Val readData = refCsr f3 rdIdx rs1Idx rs1Val readData := by
  have hu : rs1Idx % 32 < 2 ^ 32 := by omega
  have hval : rs1Val % 2 ^ 32 = rs1Val := Nat.mod_eq_of_lt h1
  have hrd : readData % 2 ^ 32 = readData := Nat.mod_eq_of_lt h2
  have huu : rs1Idx % 32 % 2 ^ 32 = rs1Idx % 32 := Nat.mod_eq_of_lt hu
  have hor1 : (rs1Val ||| readData) % 2 ^ 32 = readData ||| rs1Val := by
    rw [Nat.or_comm]; exact Nat.mod_eq_of_lt (Nat.or_lt_two_pow h2 h1)
  have hand1 : (((2 ^ 32 - 1) ^^^ rs1Val) &&& readData) % 2 ^ 32 =
      readData &&& ((2 ^ 32 - 1) ^^^ rs1Val) := by
    rw [Nat.and_comm]
    exact Nat.mod_eq_of_lt (Nat.and_lt_two_pow _ (Nat.xor_lt_two_pow (by norm_num) h1))
  have hor2 : (rs1Idx % 32 ||| readData) % 2 ^ 32 = readData ||| rs1Idx % 32 := by
    rw [Nat.or_comm]; exact Nat.mod_eq_of_lt (Nat.or_lt_two_pow h2 hu)
  have hand2 : (((2 ^ 32 - 1) ^^^ rs1Idx % 32) &&& readData) % 2 ^ 32 =
      readData &&& ((2 ^ 32 - 1) ^^^ rs1Idx % 32) := by
    rw [Nat.and_comm]
    exact Nat.mod_eq_of_lt (Nat.and_lt_two_pow _ (Nat.xor_lt_two_pow (by norm_num) hu))
  simp only [csrExecute, refCsr, csrWriteData, reduceIte, hval, hrd, huu, Nat.or_zero]
  split_ifs <;> simp_all [CsrEffect.mk.injEq]

/-- Witness for C3 in the RW mode at rd = x0 (no read strobe, write of rs1). -/
theorem C3_csr_modes_witness :
    csrExecute 1 0 5 12345 777 = refCsr 1 0 5 12345 777 ∧
    (csrExecute 1 0 5 12345 777).readEn = false ∧
    (csrExecute 1 0 5 12345 777).writeData = 12345 :=
  ⟨C3_csr_modes 1 0 5 12345 777 (by norm_num) (by norm_num), by decide, by decide⟩

/-!
## Instruction decoding (`src/risky/instruction.py`)

Field views and the five immediate encodings, as 32-bit `Nat` patterns.
-/

def iOp (w : Nat) : Nat := w % 128
def iRd (w : Nat) : Nat := (w >>> 7) % 32
def iF3 (w : Nat) : Nat := (w >>> 12) % 8
def iRs1 (w : Nat) : Nat := (w >>> 15) % 32
def iRs2 (w : Nat) : Nat := (w >>> 20) % 32
def iF7 (w : Nat) : Nat := (w >>> 25) % 128

/-- Sign extension of a `w`-bit value into a 32-bit pattern
(`.as_signed()` read back as bits). -/
def sext (w x : Nat) : Nat :=
  if (x % 2 ^ w).testBit (w - 1) then x % 2 ^ w + (2 ^ 32 - 2 ^ w) else x % 2 ^ w

/-- `imm_i = Cat(rs2, funct7).as_signed()`. -/
def immI (w : Nat) : Nat := sext 12 (iRs2 w + 32 * iF7 w)

/-- `imm_s = Cat(rd, funct7).as_signed()`. -/
def immS (w : Nat) : Nat := sext 12 (iRd w + 32 * iF7 w)

/-- `imm_b = Cat(0, rd[1:], funct7[:-1], rd[0], funct7[-1]).as_signed()`. -/
def immB (w : Nat) : Nat :=
  sext 13 ((iRd w >>> 1) <<< 1 + (iF7 w % 64) <<< 5 + (iRd w % 2) <<< 11 + (iF7 w >>> 6) <<< 12)

/-- The 20-bit `Cat(funct3, rs1, rs2, funct7)` shared by `imm_u` and `imm_j`. -/
def immRaw20 (w : Nat) : Nat := iF3 w + (iRs1 w <<< 3) + (iRs2 w <<< 8) + (iF7 w <<< 13)

/-- `imm_u = (Cat(funct3, rs1, rs2, funct7) << 12).as_signed()` as 32 bits. -/
def immU (w : Nat) : Nat := (immRaw20 w <<< 12) % 2 ^ 32

/-- `imm_j`: scatter of the 20-bit raw field, sign-extended from bit 20. -/
def immJ (w : Nat) : Nat :=
  let r := immRaw20 w
  sext 21 (((r >>> 9) % 1024) <<< 1 + ((r >>> 8) % 2) <<< 11 + (r % 256) <<< 12 + (r >>> 19) <<< 20)

/-- Opcode constants (`instruction.py`, class `Op`). -/
def opLUI : Nat := 55
def opAUIPC : Nat := 23
def opJAL : Nat := 111
def opJALR : Nat := 103
def opBRANCH : Nat := 99
def opLOAD : Nat := 3
def opSTORE : Nat := 35
def opOPIMM : Nat := 19
def opOP : Nat := 51
def opSYSTEM : Nat := 115

/-!
## The canonical two-state CPU (`src/risky/cpu.py`, class `Cpu`)

A tick is `cpuStep : CpuState → BusIn → CpuState × BusOut`.  `cpuExec`
transcribes the EXECUTE-phase combinational block `Cpu.execute` together with
the sync defaults of the EXECUTE case of `Cpu.elaborate` (advance the PC by
`pc_inc`, return to FETCH, commit `rd` when enabled).
-/

inductive CpuMode where
  | fetch | execute
  deriving DecidableEq, Repr

structure CpuState where
  mode : CpuMode
  pc : Nat
  instr : Nat
  rs1 : Nat
  rs2 : Nat
  regs : Nat → Nat

structure BusIn where
  ack : Bool
  datR : Nat
  deriving Repr

structure BusOut where
  adr : Nat
  cyc : Bool
  stb : Bool
  we : Bool
  sel : Nat
  datW : Nat
  deriving DecidableEq, Repr

/-- Combinational results of one EXECUTE cycle. -/
structure ExecOut where
  bus : BusOut
  rdWriteEn : Bool
  rdVal : Nat
  pcNext : Nat
  modeNext : CpuMode
  valid : Bool

/-- The idle bus driven outside LOAD/STORE (comb defaults of `Cpu.elaborate`). -/
def idleBus (pc : Nat) : BusOut :=
  { adr := pc >>> 2, cyc := false, stb := false, we := false, sel := 15, datW := 0 }

/-- STORE `dat_w` lane replication per funct3 (`Cat` of `src` slices). -/
def storeDatW (f3 rs2 : Nat) : Nat :=
  if f3 = 0 then
    (rs2 % 256) ||| (rs2 % 256) <<< 8 ||| (rs2 % 256) <<< 16 ||| (rs2 % 256) <<< 24
  else if f3 = 1 then (rs2 % 65536) ||| (rs2 % 65536) <<< 16
  else if f3 = 2 then rs2 % 2 ^ 32
  else 0

/-- STORE `sel` per funct3 (default `0b1111` when no case matches). -/
def storeSel (f3 a : Nat) : Nat :=
  if f3 = 0 then 1 <<< a
  else if f3 = 1 then 3 <<< (a &&& 2)
  else 15

/-- EXECUTE-cycle comb defaults: idle bus, no rd write, default ALU ADD of
`rs1`/`rs2` on `rd`, `pc_inc = 4`, back to FETCH, invalid. -/
def execInval (pc instr rs1 rs2 : Nat) : ExecOut :=
  { bus := idleBus pc, rdWriteEn := false, rdVal := aluOut AluOp.add rs1 rs2 (iRs2 instr),
    pcNext := (pc + 4) % 2 ^ 32, modeNext := CpuMode.fetch, valid := false }

def execLUI (pc instr rs1 rs2 : Nat) : ExecOut :=
  { execInval pc instr rs1 rs2 with
      rdWriteEn := true, rdVal := immU instr, valid := true }

def execAUIPC (pc instr rs1 rs2 : Nat) : ExecOut :=
  { execInval pc instr rs1 rs2 with
      rdWriteEn := true, rdVal := aluOut AluOp.add pc (immU instr) (iRs2 instr), valid := true }

def execJAL (pc instr rs1 rs2 : Nat) : ExecOut :=
  { execInval pc instr rs1 rs2 with
      rdWriteEn := true, rdVal := (pc + 4) % 2 ^ 32,
      pcNext := (pc + immJ instr) % 2 ^ 32, valid := true }

def execJALR (pc instr rs1 rs2 : Nat) : ExecOut :=
  if iF3 instr = 0 then
    let target := aluOut AluOp.add rs1 (immI instr) (iRs2 instr)
    -- `pc.eq(Cat(0, alu.out[1:]))`: only bit 0 is cleared
    { execInval pc instr rs1 rs2 with
        rdWriteEn := true, rdVal := (pc + 4) % 2 ^ 32,
        pcNext := target - target % 2, valid := true }
  else execInval pc instr rs1 rs2

def execBRANCH (pc instr rs1 rs2 : Nat) : ExecOut :=
  let f3 := iF3 instr
  let pc4 := (pc + 4) % 2 ^ 32
  let pcB := (pc + immB instr) % 2 ^ 32
  let eqb := (aluOut AluOp.eq rs1 rs2 (iRs2 instr)).testBit 0
  let ltb := (aluOut AluOp.lt rs1 rs2 (iRs2 instr)).testBit 0
  let ltub := (aluOut AluOp.ltu rs1 rs2 (iRs2 instr)).testBit 0
  if f3 = 0 then
    { execInval pc instr rs1 rs2 with
        rdVal := aluOut AluOp.eq rs1 rs2 (iRs2 instr),
        pcNext := if eqb then pcB else pc4, valid := true }
  else if f3 = 1 then
    { execInval pc instr rs1 rs2 with
        rdVal := aluOut AluOp.eq rs1 rs2 (iRs2 instr),
        pcNext := if !eqb then pcB else pc4, valid := true }
  else if f3 = 4 then
    { execInval pc instr rs1 rs2 with
        rdVal := aluOut AluOp.lt rs1 rs2 (iRs2 instr),
        pcNext := if ltb then pcB else pc4, valid := true }
  else if f3 = 5 then
    { execInval pc instr rs1 rs2 with
        rdVal := aluOut AluOp.lt rs1 rs2 (iRs2 instr),
        pcNext := if !ltb then pcB else pc4, valid := true }
  else if f3 = 6 then
    { execInval pc instr rs1 rs2 with
        rdVal := aluOut AluOp.ltu rs1 rs2 (iRs2 instr),
        pcNext := if ltub then pcB else pc4, valid := true }
  else if f3 = 7 then
    { execInval pc instr rs1 rs2 with
        rdVal := aluOut AluOp.ltu rs1 rs2 (iRs2 instr),
        pcNext := if !ltub then pcB else pc4, valid := true }
  else execInval pc instr rs1 rs2

def execLOAD (pc instr rs1 rs2 : Nat) (bin : BusIn) : ExecOut :=
  let dest := (rs1 + immI instr) % 2 ^ 32
  let a := dest % 4
  let f3 := iF3 instr
  let sel := loadSel f3 a
  let bus : BusOut :=
    { adr := dest >>> 2, cyc := true, stb := true, we := false, sel := sel, datW := 0 }
  let valid := decide (f3 = 0 ∨ f3 = 1 ∨ f3 = 2 ∨ f3 = 4 ∨ f3 = 5)
  if bin.ack then
    { bus := bus, rdWriteEn := true, rdVal := loadData f3 a bin.datR sel,
      pcNext := (pc + 4) % 2 ^ 32, modeNext := CpuMode.fetch, valid := valid }
  else
    -- stall: `pc_inc = 0`, stay in EXECUTE
    { bus := bus, rdWriteEn := false, rdVal := aluOut AluOp.add rs1 rs2 (iRs2 instr),
      pcNext := pc % 2 ^ 32, modeNext := CpuMode.execute, valid := valid }

def execSTORE (pc instr rs1 rs2 : Nat) (bin : BusIn) : ExecOut :=
  let dest := (rs1 + immS instr) % 2 ^ 32
  let a := dest % 4
  let f3 := iF3 instr
  let bus : BusOut :=
    { adr := dest >>> 2, cyc := true, stb := true, we := true,
      sel := storeSel f3 a, datW := storeDatW f3 rs2 }
  let valid := decide (f3 = 0 ∨ f3 = 1 ∨ f3 = 2)
  if bin.ack then
    { bus := bus, rdWriteEn := false, rdVal := aluOut AluOp.add rs1 rs2 (iRs2 instr),
      pcNext := (pc + 4) % 2 ^ 32, modeNext := CpuMode.fetch, valid := valid }
  else
    { bus := bus, rdWriteEn := false, rdVal := aluOut AluOp.add rs1 rs2 (iRs2 instr),
      pcNext := pc % 2 ^ 32, modeNext := CpuMode.execute, valid := valid }

def execOPIMM (pc instr rs1 rs2 : Nat) : ExecOut :=
  let f3 := iF3 instr
  let f7 := iF7 instr
  let aop :=
    if f3 = 0 then AluOp.add
    else if f3 = 2 then AluOp.lt
    else if f3 = 3 then AluOp.ltu
    else if f3 = 4 then AluOp.xorOp
    else if f3 = 6 then AluOp.orOp
    else if f3 = 7 then AluOp.andOp
    else if f3 = 1 then (if f7 = 0 then AluOp.shiftLL else AluOp.add)
    else (if f7 = 0 then AluOp.shiftRL else if f7 = 32 then AluOp.shiftRA else AluOp.add)
  let valid :=
    if f3 = 1 then decide (f7 = 0)
    else if f3 = 5 then decide (f7 = 0 ∨ f7 = 32)
    else true
  { execInval pc instr rs1 rs2 with
      rdWriteEn := true, rdVal := aluOut aop rs1 (immI instr) (iRs2 instr), valid := valid }

def execOP (pc instr rs1 rs2 : Nat) : ExecOut :=
  let f3 := iF3 instr
  let f7 := iF7 instr
  let aop :=
    if f3 = 0 then (if f7 = 0 then AluOp.add else if f7 = 32 then AluOp.sub else AluOp.add)
    else if f3 = 1 then (if f7 = 0 then AluOp.shiftLL else AluOp.add)
    else if f3 = 2 then (if f7 = 0 then AluOp.lt else AluOp.add)
    else if f3 = 3 then (if f7 = 0 then AluOp.ltu else AluOp.add)
    else if f3 = 4 then (if f7 = 0 then AluOp.xorOp else AluOp.add)
    else if f3 = 6 then (if f7 = 0 then AluOp.orOp else AluOp.add)
    else if f3 = 7 then (if f7 = 0 then AluOp.andOp else AluOp.add)
    else (if f7 = 0 then AluOp.shiftRL else if f7 = 32 then AluOp.shiftRA else AluOp.add)
  let shamt := if f3 = 1 ∨ f3 = 5 then rs2 % 32 else iRs2 instr
  let valid :=
    if f3 = 0 ∨ f3 = 5 then decide (f7 = 0 ∨ f7 = 32)
    else decide (f7 = 0)
  { execInval pc instr rs1 rs2 with
      rdWriteEn := true, rdVal := aluOut aop rs1 rs2 shamt, valid := valid }

def execSYSTEM (pc instr rs1 rs2 : Nat) : ExecOut :=
  if instr = 115 then
    -- ECALL: `pass` (not flagged valid in the base CPU)
    execInval pc instr rs1 rs2
  else if instr = 1048691 then
    -- EBREAK: `pc_inc = 0`, still returns to FETCH
    { execInval pc instr rs1 rs2 with pcNext := pc % 2 ^ 32, valid := true }
  else execInval pc instr rs1 rs2

/-- `Cpu.execute`: one EXECUTE cycle of the two-state machine, dispatching on
the opcode exactly as the Python `Switch`. -/
def cpuExec (pc instr rs1 rs2 : Nat) (bin : BusIn) : ExecOut :=
  let op := iOp instr
  if op = opLUI then execLUI pc instr rs1 rs2
  else if op = opAUIPC then execAUIPC pc instr rs1 rs2
  else if op = opJAL then execJAL pc instr rs1 rs2
  else if op = opJALR then execJALR pc instr rs1 rs2
  else if op = opBRANCH then execBRANCH pc instr rs1 rs2
  else if op = opLOAD then execLOAD pc instr rs1 rs2 bin
  else if op = opSTORE then execSTORE pc instr rs1 rs2 bin
  else if op = opOPIMM then execOPIMM pc instr rs1 rs2
  else if op = opOP then execOP pc instr rs1 rs2
  else if op = opSYSTEM then execSYSTEM pc instr rs1 rs2
  else execInval pc instr rs1 rs2

/-- One clock tick of the two-state machine (`Cpu.elaborate`). -/
def cpuStep (s : CpuState) (bin : BusIn) : CpuState × BusOut :=
  match s.mode with
  | CpuMode.fetch =>
    let bus : BusOut :=
      { adr := s.pc >>> 2, cyc := true, stb := true, we := false, sel := 15, datW := 0 }
    if bin.ack then
      let w := bin.datR % 2 ^ 32
      ({ s with instr := w, rs1 := s.regs (iRs1 w), rs2 := s.regs (iRs2 w),
                mode := CpuMode.execute }, bus)
    else (s, bus)
  | CpuMode.execute =>
    let e := cpuExec s.pc s.instr s.rs1 s.rs2 bin
    let regs' := if e.rdWriteEn ∧ iRd s.instr ≠ 0 then
        Function.update s.regs (iRd s.instr) (e.rdVal % 2 ^ 32)
      else s.regs
    ({ mode := e.modeNext, pc := e.pcNext, instr := s.instr, rs1 := s.rs1, rs2 := s.rs2,
       regs := regs' }, e.bus)

/-- Reset state: FETCH, pc 0, registers zero; `instr` resets to the struct
default of `Instruction` (an `ADDI x0, x0, 0` pattern, raw `19`). -/
def cpuInit : CpuState :=
  { mode := CpuMode.fetch, pc := 0, instr := 19, rs1 := 0, rs2 := 0, regs := fun _ => 0 }

/-- Run the CPU from a state over a list of per-tick bus inputs. -/
def cpuRun (s : CpuState) (ins : List BusIn) : CpuState :=
  match ins with
  | [] => s
  | i :: rest => cpuRun (cpuStep s i).1 rest

/-!
## ROM-backed system with Zicntr counters

`romStep` transcribes `Rom.elaborate` (`src/risky/memory.py`): a synchronous
read port plus `ack.eq((do_read | do_write) & ~ack)`.  `sysStep` wires the CPU
bus to the ROM and adds the `Zicntr` counters of `src/risky/cpu.py`
(`cycle` every tick, `instret` on `state == FETCH & bus.ack`).
-/

structure RomState where
  ack : Bool
  data : Nat

def romStep (mem : Nat → Nat) (r : RomState) (b : BusOut) : RomState :=
  let doReq := b.cyc && b.stb
  let doRead := b.cyc && !b.we && b.stb
  { ack := doReq && !r.ack,
    data := if doRead then mem b.adr else r.data }

structure SysState where
  cpu : CpuState
  rom : RomState
  cycle : Nat
  instret : Nat

def sysInit : SysState :=
  { cpu := cpuInit, rom := { ack := false, data := 0 }, cycle := 0, instret := 0 }

def sysStep (mem : Nat → Nat) (s : SysState) : SysState :=
  let bin : BusIn := { ack := s.rom.ack, datR := s.rom.data }
  let stepped := cpuStep s.cpu bin
  { cpu := stepped.1,
    rom := romStep mem s.rom stepped.2,
    cycle := (s.cycle + 1) % 2 ^ 64,
    instret := if s.cpu.mode = CpuMode.fetch ∧ s.rom.ack = true then
        (s.instret + 1) % 2 ^ 64
      else s.instret }

def sysRun (mem : Nat → Nat) : Nat → SysState
  | 0 => sysInit
  | n + 1 => sysStep mem (sysRun mem n)

/-- ROM of spec scenario 4: `ADDI x10,x0,3; LOOP: ADDI x10,x10,-1;
BNE x10,x0,LOOP; EBREAK`. -/
def loopProg : Nat → Nat
  | 0 => 3147027   -- 0x00300513  addi a0, zero, 3
  | 1 => 4294247699  -- 0xFFF50513  addi a0, a0, -1
  | 2 => 4261748451  -- 0xFE051EE3  bne a0, zero, -4
  | 3 => 1048691   -- 0x00100073  ebreak
  | _ => 0

/-- ROM of the C5 counterexample: a single `jalr x0, 6(x0)`. -/
def jalrProg : Nat → Nat
  | 0 => 6291559  -- 0x00600067
  | _ => 0

/-!
## PC alignment (C5)
-/

theorem immB_even (w : Nat) : immB w % 2 = 0 := by
  unfold immB sext
  simp only [Nat.shiftLeft_eq]
  split_ifs <;> omega

theorem immJ_even (w : Nat) : immJ w % 2 = 0 := by
  unfold immJ sext
  simp only [Nat.shiftLeft_eq]
  split_ifs <;> omega

theorem execBRANCH_pcNext_even (pc instr rs1 rs2 : Nat) (h : pc % 2 = 0) :
    (execBRANCH pc instr rs1 rs2).pcNext % 2 = 0 := by
  have hb := immB_even instr
  unfold execBRANCH execInval
  dsimp only
  generalize (aluOut AluOp.eq rs1 rs2 (iRs2 instr)).testBit 0 = b1
  generalize (aluOut AluOp.lt rs1 rs2 (iRs2 instr)).testBit 0 = b2
  generalize (aluOut AluOp.ltu rs1 rs2 (iRs2 instr)).testBit 0 = b3
  split_ifs <;> dsimp only <;> omega

set_option maxHeartbeats 3000000 in
theorem cpuExec_pcNext_even (pc instr rs1 rs2 : Nat) (bin : BusIn) (h : pc % 2 = 0) :
    (cpuExec pc instr rs1 rs2 bin).pcNext % 2 = 0 := by
  have hb := immB_even instr
  have hj := immJ_even instr
  unfold cpuExec
  dsimp only
  split_ifs
  · unfold execLUI execInval; dsimp only; omega
  · unfold execAUIPC execInval; dsimp only; omega
  · unfold execJAL execInval; dsimp only; omega
  · unfold execJALR execInval; dsimp only; split_ifs <;> dsimp only <;> omega
  · exact execBRANCH_pcNext_even pc instr rs1 rs2 h
  · unfold execLOAD; dsimp only; split_ifs <;> dsimp only <;> omega
  · unfold execSTORE; dsimp only; split_ifs <;> dsimp only <;> omega
  · unfold execOPIMM execInval; dsimp only; omega
  · unfold execOP execInval; dsimp only; omega
  · unfold execSYSTEM execInval; dsimp only; split_ifs <;> dsimp only <;> omega
  · unfold execInval; dsimp only; omega

theorem cpuStep_pc_even (s : CpuState) (bin : BusIn) (h : s.pc % 2 = 0) :
    (cpuStep s bin).1.pc % 2 = 0 := by
  unfold cpuStep
  cases hm : s.mode with
  | fetch => dsimp only; split_ifs <;> exact h
  | execute => exact cpuExec_pcNext_even s.pc s.instr s.rs1 s.rs2 bin h

/-- C5 counterexample: under the single-instruction program
`jalr x0, 6(x0)` the CPU reaches a state whose program counter is `6`, so the
low two PC bits are `0b10`, not `0b00` — JALR clears only bit 0. -/
theorem C5_counterexample : (sysRun jalrProg 3).cpu.pc % 4 = 2 := by decide

/-- C5 (amended): in every reachable CPU state, under any per-tick bus input
trace, the program counter's low bit (bit 0) is zero: branch and jump
immediates have even encodings and JALR clears the target's bit 0. -/
theorem C5_pc_bit0_zero (ins : List BusIn) : (cpuRun cpuInit ins).pc % 2 = 0 := by
  suffices h : ∀ s : CpuState, s.pc % 2 = 0 → (cpuRun s ins).pc % 2 = 0 from h cpuInit rfl
  induction ins with
  | nil => intro s h; exact h
  | cons i rest ih =>
    intro s h
    exact ih (cpuStep s i).1 (cpuStep_pc_even s i h)

/-!
## Counters (C4)
-/

/-- C4 (amended): the 64-bit cycle counter advances by one every tick, the
instret counter advances by one exactly on each completed instruction fetch
(`state == FETCH & bus.ack`), and when the loop program of spec scenario 4
first reaches the EBREAK halt (tick 23: EBREAK latched, EXECUTE entered)
`instret = 8`, `x10 = 0`, `pc = 12` and `cycle = 23`. -/
theorem C4_counters :
    (∀ (mem : Nat → Nat) (s : SysState), (sysStep mem s).cycle = (s.cycle + 1) % 2 ^ 64) ∧
    (∀ (mem : Nat → Nat) (s : SysState),
      (sysStep mem s).instret =
        if s.cpu.mode = CpuMode.fetch ∧ s.rom.ack = true then (s.instret + 1) % 2 ^ 64
        else s.instret) ∧
    ((sysRun loopProg 23).cpu.pc = 12 ∧ (sysRun loopProg 23).cpu.instr = 1048691 ∧
     (sysRun loopProg 23).cpu.mode = CpuMode.execute ∧
     (sysRun loopProg 23).instret = 8 ∧ (sysRun loopProg 23).cpu.regs 10 = 0 ∧
     (sysRun loopProg 23).cycle = 23) :=
  ⟨fun _ _ => rfl, fun _ _ => rfl, by decide⟩

/-- C4 counterexample: three ticks later the machine is still halted on the
same EBREAK (pc 12, EXECUTE) but `instret` has grown to 9 — the canonical
two-state CPU keeps re-fetching the EBREAK, so "at the EBREAK halt instret
equals 8" fails as a statement about the halted machine. -/
theorem C4_counterexample :
    (sysRun loopProg 26).cpu.pc = 12 ∧ (sysRun loopProg 26).cpu.instr = 1048691 ∧
    (sysRun loopProg 26).cpu.mode = CpuMode.execute ∧ (sysRun loopProg 26).instret = 9 := by
  decide

/-!
## Unrecognized OP encodings (C10)
-/

/-- C10: an OP (0110011) instruction whose funct7 is neither 0 nor 0b0100000
is flagged invalid (which makes `Cpu.elaborate` log the bad-instruction
diagnostic), yet EXECUTE still asserts `rd_write_en` with the default ALU ADD
result `rs1 + rs2`, commits it to a non-zero `rd`, and advances the PC by 4. -/
theorem C10_invalid_op_commits (s : CpuState) (bin : BusIn)
    (hmode : s.mode = CpuMode.execute) (hop : iOp s.instr = opOP)
    (h7a : iF7 s.instr ≠ 0) (h7b : iF7 s.instr ≠ 32) (hrd : iRd s.instr ≠ 0) :
    (cpuExec s.pc s.instr s.rs1 s.rs2 bin).valid = false ∧
    (cpuExec s.pc s.instr s.rs1 s.rs2 bin).rdWriteEn = true ∧
    (cpuStep s bin).1.regs (iRd s.instr) = (s.rs1 + s.rs2) % 2 ^ 32 ∧
    (cpuStep s bin).1.pc = (s.pc + 4) % 2 ^ 32 ∧
    (cpuStep s bin).1.mode = CpuMode.fetch := by
  have he : cpuExec s.pc s.instr s.rs1 s.rs2 bin = execOP s.pc s.instr s.rs1 s.rs2 := by
    unfold cpuExec
    dsimp only
    rw [hop]
    norm_num [opLUI, opAUIPC, opJAL, opJALR, opBRANCH, opLOAD, opSTORE, opOPIMM, opOP,
      opSYSTEM]
  have hout : (execOP s.pc s.instr s.rs1 s.rs2).valid = false ∧
      (execOP s.pc s.instr s.rs1 s.rs2).rdWriteEn = true ∧
      (execOP s.pc s.instr s.rs1 s.rs2).rdVal = (s.rs1 + s.rs2) % 2 ^ 32 ∧
      (execOP s.pc s.instr s.rs1 s.rs2).pcNext = (s.pc + 4) % 2 ^ 32 ∧
      (execOP s.pc s.instr s.rs1 s.rs2).modeNext = CpuMode.fetch := by
    unfold execOP execInval
    dsimp only
    split_ifs <;> simp_all [aluOut]
  rcases hout with ⟨hv, hw, hval, hpc, hmd⟩
  refine ⟨by rw [he]; exact hv, by rw [he]; exact hw, ?_, ?_, ?_⟩
  · unfold cpuStep
    rw [hmode]
    dsimp only
    rw [he, hw, hval]
    simp only [hrd, true_and, ne_eq, not_false_eq_true, and_true, if_true, reduceIte]
    rw [Function.update_same]
    omega
  · unfold cpuStep
    rw [hmode]
    dsimp only
    rw [he, hpc]
  · unfold cpuStep
    rw [hmode]
    dsimp only
    rw [he, hmd]

/-- Witness for C10 at a concrete invalid encoding: OP with funct7 = 7,
rd = x5, rs1 = rs2 = x0 fields; latched operand values 11 and 22. -/
theorem C10_invalid_op_commits_witness :
    (cpuStep { mode := CpuMode.execute, pc := 0, instr := 51 + (5 <<< 7) + (7 <<< 25),
               rs1 := 11, rs2 := 22, regs := fun _ => 0 } ⟨false, 0⟩).1.regs 5 = 33 := by
  have h := C10_invalid_op_commits
    { mode := CpuMode.execute, pc := 0, instr := 51 + (5 <<< 7) + (7 <<< 25),
      rs1 := 11, rs2 := 22, regs := fun _ => 0 } ⟨false, 0⟩
    (by decide) (by decide) (by decide) (by decide) (by decide)
  have h2 := h.2.2.1
  have hird : iRd (51 + (5 <<< 7) + (7 <<< 25)) = 5 := by decide
  rw [hird] at h2
  exact h2.trans (by decide)

/-!
## RAM (`src/risky/memory.py`, class `Ram`)

The RAM fakes byte enables with an async-read + sync-write state machine:
`read.en = do_read | ((state == READ) & do_write)`,
`write.en = (state == WRITE) & do_write`, write data
`(read.data & ~mask) | (dat_w & mask)`, and the registered
`ack` (default 0, set on `do_read & ~ack` or on the READ-with-write cycle).
-/

structure RamState where
  wstate : Bool  -- false = READ, true = WRITE
  ack : Bool
  rdata : Nat    -- sync read-port output register
  mem : Nat → Nat

structure RamIn where
  adr : Nat
  datW : Nat
  sel : Nat
  cyc : Bool
  stb : Bool
  we : Bool

def ramReadEn (s : RamState) (i : RamIn) : Bool :=
  (i.cyc && !i.we && i.stb) || (!s.wstate && (i.cyc && i.we && i.stb))

def ramWriteEn (s : RamState) (i : RamIn) : Bool :=
  s.wstate && (i.cyc && i.we && i.stb)

/-- The merged write-back word `(read.data & ~mask) | (dat_w & mask)`. -/
def ramMerge (rdata datW sel : Nat) : Nat :=
  (rdata &&& ((2 ^ 32 - 1) ^^^ selMask sel)) ||| ((datW % 2 ^ 32) &&& selMask sel)

def ramStep (s : RamState) (i : RamIn) : RamState :=
  let doWrite := i.cyc && i.we && i.stb
  let doRead := i.cyc && !i.we && i.stb
  { wstate := !s.wstate && doWrite,
    ack := (!s.wstate && doWrite) || (doRead && !s.ack),
    rdata := if ramReadEn s i then s.mem i.adr else s.rdata,
    mem := if ramWriteEn s i then
        Function.update s.mem i.adr (ramMerge s.rdata i.datW i.sel % 2 ^ 32)
      else s.mem }

/-- Byte lane `k` of a 32-bit word. -/
def byteLane (k x : Nat) : Nat := (x >>> (8 * k)) &&& 255

theorem testBit_255 (j : Nat) : Nat.testBit 255 j = decide (j < 8) := by
  have h : (255 : Nat) = 2 ^ 8 - 1 := by norm_num
  rw [h, Nat.testBit_two_pow_sub_one]

theorem testBit_255_shift (n j : Nat) :
    ((255 : Nat) <<< n).testBit j = (decide (n ≤ j) && decide (j - n < 8)) := by
  rw [Nat.testBit_shiftLeft, testBit_255]

theorem selMask_testBit_lane (sel k i : Nat) (hk : k < 4) (hi : i < 8) :
    (selMask sel).testBit (8 * k + i) = sel.testBit k := by
  interval_cases k
  · have a0 : i < 8 := hi
    have a1 : ¬ 8 ≤ i := by omega
    have a2 : ¬ 16 ≤ i := by omega
    have a3 : ¬ 24 ≤ i := by omega
    unfold selMask
    by_cases h0 : sel.testBit 0 <;> by_cases h1 : sel.testBit 1 <;>
      by_cases h2 : sel.testBit 2 <;> by_cases h3 : sel.testBit 3 <;>
        (simp only [h0, h1, h2, h3, reduceIte, Nat.testBit_or, testBit_255_shift,
          testBit_255, Nat.zero_testBit, a0, a1, a2, a3,
          decide_True, decide_False, Bool.false_and, Bool.true_and, Bool.and_false,
          Bool.and_true, Bool.or_false, Bool.false_or, Bool.or_true, Bool.true_or,
          eq_self_iff_true] <;> simp_all)
  · have b0 : ¬ (8 + i < 8) := by omega
    have b1 : 8 ≤ 8 + i := by omega
    have b2 : 8 + i - 8 = i := by omega
    have b3 : i < 8 := hi
    have b4 : ¬ 16 ≤ 8 + i := by omega
    have b5 : ¬ 24 ≤ 8 + i := by omega
    unfold selMask
    by_cases h0 : sel.testBit 0 <;> by_cases h1 : sel.testBit 1 <;>
      by_cases h2 : sel.testBit 2 <;> by_cases h3 : sel.testBit 3 <;>
        (simp only [h0, h1, h2, h3, reduceIte, Nat.testBit_or, testBit_255_shift,
          testBit_255, Nat.zero_testBit, b0, b1, b2, b3, b4, b5,
          decide_True, decide_False, Bool.false_and, Bool.true_and, Bool.and_false,
          Bool.and_true, Bool.or_false, Bool.false_or, Bool.or_true, Bool.true_or,
          eq_self_iff_true] <;> simp_all)
  · have c0 : ¬ (16 + i < 8) := by omega
    have c1 : 8 ≤ 16 + i := by omega
    have c2 : 16 + i - 8 = 8 + i := by omega
    have c3 : ¬ (8 + i < 8) := by omega
    have c4 : 16 ≤ 16 + i := by omega
    have c5 : 16 + i - 16 = i := by omega
    have c6 : i < 8 := hi
    have c7 : ¬ 24 ≤ 16 + i := by omega
    unfold selMask
    by_cases h0 : sel.testBit 0 <;> by_cases h1 : sel.testBit 1 <;>
      by_cases h2 : sel.testBit 2 <;> by_cases h3 : sel.testBit 3 <;>
        (simp only [h0, h1, h2, h3, reduceIte, Nat.testBit_or, testBit_255_shift,
          testBit_255, Nat.zero_testBit, c0, c1, c2, c3, c4, c5, c6, c7,
          decide_True, decide_False, Bool.false_and, Bool.true_and, Bool.and_false,
          Bool.and_true, Bool.or_false, Bool.false_or, Bool.or_true, Bool.true_or,
          eq_self_iff_true] <;> simp_all)
  · have d0 : ¬ (24 + i < 8) := by omega
    have d1 : 8 ≤ 24 + i := by omega
    have d2 : 24 + i - 8 = 16 + i := by omega
    have d3 : ¬ (16 + i < 8) := by omega
    have d4 : 16 ≤ 24 + i := by omega
    have d5 : 24 + i - 16 = 8 + i := by omega
    have d6 : ¬ (8 + i < 8) := by omega
    have d7 : 24 ≤ 24 + i := by omega
    have d8 : 24 + i - 24 = i := by omega
    have d9 : i < 8 := hi
    unfold selMask
    by_cases h0 : sel.testBit 0 <;> by_cases h1 : sel.testBit 1 <;>
      by_cases h2 : sel.testBit 2 <;> by_cases h3 : sel.testBit 3 <;>
        (simp only [h0, h1, h2, h3, reduceIte, Nat.testBit_or, testBit_255_shift,
          testBit_255, Nat.zero_testBit, d0, d1, d2, d3, d4, d5, d6, d7, d8, d9,
          decide_True, decide_False, Bool.false_and, Bool.true_and, Bool.and_false,
          Bool.and_true, Bool.or_false, Bool.false_or, Bool.or_true, Bool.true_or,
          eq_self_iff_true] <;> simp_all)

theorem selMask_lt (sel : Nat) : selMask sel < 2 ^ 32 := by
  unfold selMask
  by_cases h0 : sel.testBit 0 <;> by_cases h1 : sel.testBit 1 <;>
    by_cases h2 : sel.testBit 2 <;> by_cases h3 : sel.testBit 3 <;>
      simp [h0, h1, h2, h3] <;> decide

theorem mergeByte (m d sel k : Nat) (hk : k < 4) (hd : d < 2 ^ 32) :
    byteLane k (ramMerge m d sel) =
      if sel.testBit k then byteLane k d else byteLane k m := by
  have hdm : d % 2 ^ 32 = d := Nat.mod_eq_of_lt hd
  by_cases hs : sel.testBit k <;>
  · simp only [hs, if_true, if_false]
    apply Nat.eq_of_testBit_eq
    intro i
    simp only [byteLane, ramMerge, hdm, Nat.testBit_and, Nat.testBit_or,
      Nat.testBit_shiftRight, Nat.testBit_xor, testBit_255]
    by_cases hi : i < 8
    · rw [selMask_testBit_lane sel k i hk hi, Nat.testBit_two_pow_sub_one]
      have h32 : 8 * k + i < 32 := by omega
      simp [hs, hi, h32, testBit_255]
    · simp [hi, testBit_255]

theorem ramStep2_mem (mem : Nat → Nat) (rd0 adr datW sel : Nat) :
    (ramStep (ramStep ⟨false, false, rd0, mem⟩ ⟨adr, datW, sel, true, true, true⟩)
        ⟨adr, datW, sel, true, true, true⟩).mem adr =
      ramMerge (mem adr) datW sel % 2 ^ 32 := by
  simp [ramStep, ramReadEn, ramWriteEn, Function.update_same]

theorem ramMerge_lt (m d sel : Nat) : ramMerge m d sel < 2 ^ 32 := by
  unfold ramMerge
  apply Nat.or_lt_two_pow
  · exact Nat.and_lt_two_pow _ (Nat.xor_lt_two_pow (by norm_num) (selMask_lt sel))
  · exact Nat.and_lt_two_pow _ (selMask_lt sel)

/-- **C6**: a held RAM write transaction from the idle state (`state = READ`,
`ack` low) merges `dat_w` into the stored word byte lane by byte lane: lanes
whose `sel` bit is set take the corresponding byte of `dat_w`, the other lanes
keep their previous value (`(read.data & ~mask) | (dat_w & mask)`). -/
theorem C6_ram_byte_merge (mem : Nat → Nat) (rd0 adr datW sel k : Nat)
    (hk : k < 4) (hd : datW < 2 ^ 32) :
    byteLane k
        ((ramStep (ramStep ⟨false, false, rd0, mem⟩ ⟨adr, datW, sel, true, true, true⟩)
          ⟨adr, datW, sel, true, true, true⟩).mem adr) =
      if sel.testBit k then byteLane k datW else byteLane k (mem adr) := by
  rw [ramStep2_mem, Nat.mod_eq_of_lt (ramMerge_lt _ _ _)]
  exact mergeByte (mem adr) datW sel k hk hd

theorem C6_ram_byte_merge_witness :
    byteLane 1
        ((ramStep (ramStep ⟨false, false, 0, fun _ => 287454020⟩
            ⟨0, 1432778632, 5, true, true, true⟩)
          ⟨0, 1432778632, 5, true, true, true⟩).mem 0) =
      if (5 : Nat).testBit 1 then byteLane 1 1432778632
      else byteLane 1 ((fun _ => 287454020) 0) :=
  C6_ram_byte_merge (fun _ => 287454020) 0 0 1432778632 5 1 (by decide) (by decide)

/-- **C7** counterexample: during the first cycle of a write transaction from
idle — the cycle in which the internal read of the addressed word is issued
(`read.en` high) — the registered `ack` output is still low, so `ack` is not
asserted during both cycles of the two-cycle write. -/
theorem C7_counterexample :
    ramReadEn ⟨false, false, 0, fun _ => 0⟩ ⟨0, 1, 15, true, true, true⟩ = true ∧
    (⟨false, false, 0, fun _ => 0⟩ : RamState).ack = false := by
  constructor
  · rfl
  · rfl

/-- **C7** (amended): a held write transaction from idle takes two cycles:
in the first the internal read of the addressed word is issued (`read.en`
high, write port idle) while `ack` is still low; in the second the merged
value is written back (`write.en` high) with `ack` asserted; afterwards `ack`
drops and the state machine returns to READ. -/
theorem C7_ram_write_timing (mem : Nat → Nat) (rd0 adr datW sel : Nat) :
    ramReadEn ⟨false, false, rd0, mem⟩ ⟨adr, datW, sel, true, true, true⟩ = true ∧
    ramWriteEn ⟨false, false, rd0, mem⟩ ⟨adr, datW, sel, true, true, true⟩ = false ∧
    (⟨false, false, rd0, mem⟩ : RamState).ack = false ∧
    ramWriteEn (ramStep ⟨false, false, rd0, mem⟩ ⟨adr, datW, sel, true, true, true⟩)
      ⟨adr, datW, sel, true, true, true⟩ = true ∧
    (ramStep ⟨false, false, rd0, mem⟩ ⟨adr, datW, sel, true, true, true⟩).ack = true ∧
    (ramStep (ramStep ⟨false, false, rd0, mem⟩ ⟨adr, datW, sel, true, true, true⟩)
      ⟨adr, datW, sel, true, true, true⟩).ack = false ∧
    (ramStep (ramStep ⟨false, false, rd0, mem⟩ ⟨adr, datW, sel, true, true, true⟩)
      ⟨adr, datW, sel, true, true, true⟩).wstate = false := by
  refine ⟨rfl, rfl, rfl, ?_, ?_, ?_, ?_⟩ <;> simp [ramStep, ramReadEn, ramWriteEn]


/-!
## SoC memory map (`src/risky/soc.py`, `Soc.__init__`)

`Soc.__init__` builds `risky.memory.MemoryMap(alignment=28)` and adds, in
order: a 4 KiB bootloader ROM, a 32 KiB program ROM, an 8 KiB RAM, and a
64 KiB (`addr_width=16`) peripheral window.  The window addresses themselves
are assigned by the external `amaranth_soc.wishbone.Decoder` (not part of
this repository): each window with no explicit address is placed at the next
free byte address rounded up to `2 ^ max(alignment, log2Ceil(size))`.  That
allocator is modelled here by `allocateWindows`.
-/

def alignUp (a al : Nat) : Nat := ((a + 2 ^ al - 1) / 2 ^ al) * 2 ^ al

/-- Least `k` with `n ≤ 2 ^ k` (ceiling log2, for window sizes up to 4 GiB). -/
def log2Ceil (n : Nat) : Nat := (List.range 33).findIdx (fun k => n ≤ 2 ^ k)

def allocateWindows (alignment : Nat) : Nat → List Nat → List (Nat × Nat)
  | _, [] => []
  | next, size :: rest =>
      let start := alignUp next (max alignment (log2Ceil size))
      (start, size) :: allocateWindows alignment (start + size) rest

/-- The four windows added by `Soc.__init__`, in program order:
bootloader ROM (4 KiB), program ROM (32 KiB), RAM (8 KiB), I/O (64 KiB). -/
def socLayout : List (Nat × Nat) :=
  allocateWindows 28 0 [4 * 1024, 32 * 1024, 8 * 1024, 2 ^ 16]

/-- **C9** counterexample: with `alignment=28` every window is aligned to
`2 ^ 28 = 0x10000000`, so the third window (the 8 KiB RAM) starts at
`0x20000000`, not at the claimed `0x10000000`, and the I/O window starts at
`0x30000000`, not `0x20000000`. -/
theorem C9_counterexample :
    ((socLayout.get? 2).map Prod.fst = some 536870912 ∧
      (socLayout.get? 3).map Prod.fst = some 805306368) ∧
    ¬ ((socLayout.get? 2).map Prod.fst = some 268435456) := by decide

/-- **C9** (amended): in the default SoC memory map the 4 KiB bootloader ROM
starts at `0x00000000`, the 32 KiB program ROM window starts at `0x10000000`,
the RAM window starts at `0x20000000`, and the I/O peripheral window starts
at `0x30000000` (each window is aligned to `2 ^ 28`). -/
theorem C9_memory_map :
    socLayout = [(0, 4096), (268435456, 32768), (536870912, 8192),
      (805306368, 65536)] := by decide


/-!
## The one-hot-mux CPU (`src/risky/ormux_cpu.py`, class `Cpu`)

The EXECUTE-phase combinational contributions of the per-instruction
components (class `Rv32i`) are OR-combined by `OneHotMux`; since at most one
component asserts `valid` (the opcode conditions of the `always` methods are
mutually exclusive) the OR equals the unique valid component's contribution,
or all-zeros when no component recognizes the instruction.  `ormuxExec`
dispatches accordingly; each component drives its outputs only under
`valid & execute`.
-/

/-- ALU of the one-hot-mux CPU (`ormux_cpu.py`, class `Alu`): op is the raw
`Funct3Alu` plus `alt`; the shift amount is `in2 & (xlen-1)`; the shared
33-bit right-shifter is `Cat(shift_in, alt & shift_in[-1]).as_signed() >>
(in2 & 31)` with left shifts through bit reversal — the same datapath shape
as `aluShifter` with `isLL = (op == SHIFT_L)` and `isRA = alt`.  `minus`,
`ltu` and `lt` are the same expressions as in `cpu.py`'s `Alu`
(`aluMinus`/`aluLtuBit`/`aluLtBit`). -/
def ormuxAlu (op : Nat) (alt : Bool) (in1 in2 : Nat) : Nat :=
  let shamt := in2 % 32
  if op = 0 then (if alt then aluMinus in1 in2 % 2 ^ 32 else (in1 + in2) % 2 ^ 32)
  else if op = 1 then revBits 32 (aluShifter true alt in1 shamt % 2 ^ 32)
  else if op = 5 then aluShifter false alt in1 shamt % 2 ^ 32
  else if op = 2 then (if aluLtBit in1 in2 then 1 else 0)
  else if op = 3 then (if aluLtuBit in1 in2 then 1 else 0)
  else if op = 4 then (in1 ^^^ in2) % 2 ^ 32
  else if op = 6 then (in1 ||| in2) % 2 ^ 32
  else if op = 7 then (in1 &&& in2) % 2 ^ 32
  else 0

/-- Load datapath of the ormux `Load` component: same shift as `cpu.py`
(`loadShift`), but the mask comes from funct3 instead of `sel`. -/
def ormuxLoadData (f3 a datR : Nat) : Nat :=
  let mask : Nat := if f3 = f3Byte ∨ f3 = f3ByteU then 255
    else if f3 = f3Half ∨ f3 = f3HalfU then 65535 else 4294967295
  let d2 := ((datR % 2 ^ 32) >>> (loadShift f3 a <<< 3)) &&& mask
  let sign := if f3 = f3Byte then d2.testBit 7
    else if f3 = f3Half then d2.testBit 15 else false
  d2 ||| (((2 ^ 32 - 1) ^^^ mask) &&& (if sign then 2 ^ 32 - 1 else 0))

/-- `dat_w` of the ormux `Store` component: `Cat(src[:16], src[:16])` with the
byte lanes 1 and 3 (BYTE) or the high half (default/WORD) overridden, written
here lane by lane. -/
def ormuxStoreDatW (f3 src : Nat) : Nat :=
  let b0 := src % 256
  let h0 := src % 65536
  if f3 = 0 then b0 + b0 * 2 ^ 8 + b0 * 2 ^ 16 + b0 * 2 ^ 24
  else if f3 = 1 then h0 + h0 * 2 ^ 16
  else h0 + ((src >>> 16) % 65536) * 2 ^ 16

/-- One component's contribution to the OR-muxed `InstrBus`/`MemBus`. -/
structure OrmuxOut where
  valid : Bool
  rdData : Nat
  rdStb : Bool
  jAddr : Nat
  jRel : Bool
  jEn : Bool
  wait : Bool
  bus : BusOut

/-- The all-zero contribution (no component valid). -/
def zeroOut : OrmuxOut :=
  { valid := false, rdData := 0, rdStb := false, jAddr := 0, jRel := false,
    jEn := false, wait := false,
    bus := { adr := 0, cyc := false, stb := false, we := false, sel := 0, datW := 0 } }

/-- `Rv32i.Branch`: `j_addr = imm_b`, `j_rel = 1`, `j_en` from the shared ALU
(`ADD_SUB`+`alt` and `out.any()` for EQ/NE, `LT`/`LTU` bit 0 otherwise). -/
def ormuxBranch (pc instr rs1 rs2 : Nat) : OrmuxOut :=
  let f3 := iF3 instr
  if f3 = 0 then
    { zeroOut with
      valid := true, jAddr := immB instr, jRel := true,
      jEn := decide (ormuxAlu 0 true rs1 rs2 = 0) }
  else if f3 = 1 then
    { zeroOut with
      valid := true, jAddr := immB instr, jRel := true,
      jEn := !decide (ormuxAlu 0 true rs1 rs2 = 0) }
  else if f3 = 4 then
    { zeroOut with
      valid := true, jAddr := immB instr, jRel := true,
      jEn := (ormuxAlu 2 false rs1 rs2).testBit 0 }
  else if f3 = 5 then
    { zeroOut with
      valid := true, jAddr := immB instr, jRel := true,
      jEn := !(ormuxAlu 2 false rs1 rs2).testBit 0 }
  else if f3 = 6 then
    { zeroOut with
      valid := true, jAddr := immB instr, jRel := true,
      jEn := (ormuxAlu 3 false rs1 rs2).testBit 0 }
  else if f3 = 7 then
    { zeroOut with
      valid := true, jAddr := immB instr, jRel := true,
      jEn := !(ormuxAlu 3 false rs1 rs2).testBit 0 }
  else zeroOut

/-- `Rv32i.Load`: drive the memory bus, stall until `ack`, then extract. -/
def ormuxLoad (pc instr rs1 rs2 : Nat) (bin : BusIn) : OrmuxOut :=
  let dest := (rs1 + immI instr) % 2 ^ 32
  let a := dest % 4
  let f3 := iF3 instr
  if f3 = 0 ∨ f3 = 1 ∨ f3 = 2 ∨ f3 = 4 ∨ f3 = 5 then
    let sel := if f3 = f3Byte ∨ f3 = f3ByteU then 1 <<< a
      else if f3 = f3Half ∨ f3 = f3HalfU then 3 <<< (a &&& 2)
      else 15
    let bus : BusOut :=
      { adr := dest >>> 2, cyc := true, stb := true, we := false, sel := sel, datW := 0 }
    if bin.ack then
      { zeroOut with
        valid := true, bus := bus,
        rdData := ormuxLoadData f3 a bin.datR, rdStb := true }
    else
      { zeroOut with valid := true, bus := bus, wait := true }
  else zeroOut

/-- `Rv32i.Store`: drive the write, stall until `ack`. -/
def ormuxStore (pc instr rs1 rs2 : Nat) (bin : BusIn) : OrmuxOut :=
  let dest := (rs1 + immS instr) % 2 ^ 32
  let a := dest % 4
  let f3 := iF3 instr
  if f3 = 0 ∨ f3 = 1 ∨ f3 = 2 then
    let sel := if f3 = 0 then 1 <<< a else if f3 = 1 then 3 <<< (a &&& 2) else 15
    let bus : BusOut :=
      { adr := dest >>> 2, cyc := true, stb := true, we := true, sel := sel,
        datW := ormuxStoreDatW f3 rs2 }
    if bin.ack then { zeroOut with valid := true, bus := bus }
    else { zeroOut with valid := true, bus := bus, wait := true }
  else zeroOut

/-- `Rv32i.OpImm`: ALU op from funct3 on `rs1`/`imm_i`; for shifts the second
operand is the raw `rs2` field and `alt = ~funct7.matches(NORMAL)`. -/
def ormuxOpImm (pc instr rs1 rs2 : Nat) : OrmuxOut :=
  let f3 := iF3 instr
  let f7 := iF7 instr
  let valid : Bool := if f3 = 1 then decide (f7 = 0)
    else if f3 = 5 then decide (f7 = 0 ∨ f7 = 32)
    else true
  if valid then
    let shift := f3 = 1 ∨ f3 = 5
    let in2 := if shift then iRs2 instr else immI instr
    let alt := if shift then decide (f7 ≠ 0) else false
    { zeroOut with valid := true, rdData := ormuxAlu f3 alt rs1 in2, rdStb := true }
  else zeroOut

/-- `Rv32i.Op`: ALU op from funct3 on `rs1`/`rs2`, `alt` from funct7. -/
def ormuxOp (pc instr rs1 rs2 : Nat) : OrmuxOut :=
  let f3 := iF3 instr
  let f7 := iF7 instr
  let valid : Bool := if f3 = 0 ∨ f3 = 5 then decide (f7 = 0 ∨ f7 = 32)
    else decide (f7 = 0)
  if valid then
    { zeroOut with
      valid := true,
      rdData := ormuxAlu f3 (decide (f7 ≠ 0)) rs1 rs2, rdStb := true }
  else zeroOut

/-- The OR of all component contributions during EXECUTE: exactly the valid
component's outputs (the `always` conditions are mutually exclusive), or
all-zeros.  `EBREAK` matches the full 32-bit encoding and only waits. -/
def ormuxExec (pc instr rs1 rs2 : Nat) (bin : BusIn) : OrmuxOut :=
  let op := iOp instr
  if op = opLUI then
    { zeroOut with valid := true, rdData := immU instr, rdStb := true }
  else if op = opAUIPC then
    { zeroOut with
      valid := true, jAddr := immU instr, jRel := true,
      rdData := (pc + immU instr) % 2 ^ 32, rdStb := true }
  else if op = opJAL then
    { zeroOut with
      valid := true, rdData := (pc + 4) % 2 ^ 32, rdStb := true,
      jAddr := immJ instr, jRel := true, jEn := true }
  else if op = opJALR then
    (if iF3 instr = 0 then
      let dest := (rs1 + immI instr) % 2 ^ 32
      -- `j_addr = Cat(0, dest[1:])`: only bit 0 cleared
      { zeroOut with
        valid := true, rdData := (pc + 4) % 2 ^ 32, rdStb := true,
        jAddr := dest - dest % 2, jEn := true }
    else zeroOut)
  else if op = opBRANCH then ormuxBranch pc instr rs1 rs2
  else if op = opLOAD then ormuxLoad pc instr rs1 rs2 bin
  else if op = opSTORE then ormuxStore pc instr rs1 rs2 bin
  else if op = opOPIMM then ormuxOpImm pc instr rs1 rs2
  else if op = opOP then ormuxOp pc instr rs1 rs2
  else if instr = 1048691 then { zeroOut with valid := true, wait := true }
  else zeroOut

/-- `pc_jump = Mux(j_rel, pc + j_addr, j_addr)` (32-bit). -/
def ormuxPcJump (pc : Nat) (o : OrmuxOut) : Nat :=
  if o.jRel then (pc + o.jAddr) % 2 ^ 32 else o.jAddr % 2 ^ 32

/-- One clock tick of the one-hot-mux CPU (`ormux_cpu.py`, `Cpu.elaborate`):
FETCH is the same two-phase fetch as `cpu.py`; EXECUTE advances
`pc`/`state` only when `~wait`, jumping to `pc_jump` under `j_en`, and
commits `rd_data` on `rd_stb` to a non-zero `rd`. -/
def ormuxStep (s : CpuState) (bin : BusIn) : CpuState × BusOut :=
  match s.mode with
  | CpuMode.fetch =>
    let bus : BusOut :=
      { adr := s.pc >>> 2, cyc := true, stb := true, we := false, sel := 15, datW := 0 }
    if bin.ack then
      let w := bin.datR % 2 ^ 32
      ({ s with instr := w, rs1 := s.regs (iRs1 w), rs2 := s.regs (iRs2 w),
                mode := CpuMode.execute }, bus)
    else (s, bus)
  | CpuMode.execute =>
    let o := ormuxExec s.pc s.instr s.rs1 s.rs2 bin
    let pc' := if o.wait then s.pc
      else if o.jEn then ormuxPcJump s.pc o else (s.pc + 4) % 2 ^ 32
    let mode' := if o.wait then CpuMode.execute else CpuMode.fetch
    let regs' := if o.rdStb ∧ iRd s.instr ≠ 0 then
        Function.update s.regs (iRd s.instr) (o.rdData % 2 ^ 32)
      else s.regs
    ({ mode := mode', pc := pc', instr := s.instr, rs1 := s.rs1, rs2 := s.rs2,
       regs := regs' }, o.bus)

/-- Bus agreement: the handshake lines always agree, and whenever a
transaction is driven (`cyc`) the whole bus agrees.  (When idle the two CPUs
differ only in the meaningless `adr`/`sel` idle values: `cpu.py` leaves its
comb defaults `pc[2:]`/`0b1111`, the ormux CPU drives zeros.) -/
def busMatches (b1 b2 : BusOut) : Prop :=
  b1.cyc = b2.cyc ∧ b1.stb = b2.stb ∧ b1.we = b2.we ∧ (b1.cyc = true → b1 = b2)

/-- Pointwise agreement of the two EXECUTE datapaths from a common state. -/
def stepAgree (pc instr rs1 rs2 : Nat) (bin : BusIn) : Prop :=
  (ormuxExec pc instr rs1 rs2 bin).rdStb = (cpuExec pc instr rs1 rs2 bin).rdWriteEn ∧
  ((ormuxExec pc instr rs1 rs2 bin).rdStb = true →
    (ormuxExec pc instr rs1 rs2 bin).rdData % 2 ^ 32 =
      (cpuExec pc instr rs1 rs2 bin).rdVal % 2 ^ 32) ∧
  (if (ormuxExec pc instr rs1 rs2 bin).wait then pc
    else if (ormuxExec pc instr rs1 rs2 bin).jEn then
      ormuxPcJump pc (ormuxExec pc instr rs1 rs2 bin)
    else (pc + 4) % 2 ^ 32) = (cpuExec pc instr rs1 rs2 bin).pcNext ∧
  (if (ormuxExec pc instr rs1 rs2 bin).wait then CpuMode.execute else CpuMode.fetch) =
    (cpuExec pc instr rs1 rs2 bin).modeNext ∧
  busMatches (ormuxExec pc instr rs1 rs2 bin).bus (cpuExec pc instr rs1 rs2 bin).bus


theorem bitOfBool (b : Bool) : (if b then (1 : Nat) else 0).testBit 0 = b := by
  cases b <;> decide

theorem decide_eq_beq_zero (x : Nat) : decide (x = 0) = (x == 0) := by
  by_cases h : x = 0 <;> simp [h]

theorem iRs2_lt (w : Nat) : iRs2 w < 32 := Nat.mod_lt _ (by norm_num)

theorem agreeLUI (pc instr rs1 rs2 : Nat) (bin : BusIn) (hop : iOp instr = opLUI) :
    stepAgree pc instr rs1 rs2 bin := by
  have he : cpuExec pc instr rs1 rs2 bin = execLUI pc instr rs1 rs2 := by
    simp [cpuExec, hop]
  have ho : ormuxExec pc instr rs1 rs2 bin =
      { zeroOut with valid := true, rdData := immU instr, rdStb := true } := by
    simp [ormuxExec, hop]
  unfold stepAgree
  rw [he, ho]
  simp [execLUI, execInval, idleBus, busMatches, zeroOut]

theorem agreeAUIPC (pc instr rs1 rs2 : Nat) (bin : BusIn) (hop : iOp instr = opAUIPC) :
    stepAgree pc instr rs1 rs2 bin := by
  have he : cpuExec pc instr rs1 rs2 bin = execAUIPC pc instr rs1 rs2 := by
    simp [cpuExec, hop, opLUI, opAUIPC]
  have ho : ormuxExec pc instr rs1 rs2 bin =
      { zeroOut with
        valid := true, jAddr := immU instr, jRel := true,
        rdData := (pc + immU instr) % 2 ^ 32, rdStb := true } := by
    simp [ormuxExec, hop, opLUI, opAUIPC]
  unfold stepAgree
  rw [he, ho]
  simp [execAUIPC, execInval, idleBus, busMatches, zeroOut, aluOut]

theorem agreeJAL (pc instr rs1 rs2 : Nat) (bin : BusIn) (hop : iOp instr = opJAL) :
    stepAgree pc instr rs1 rs2 bin := by
  have he : cpuExec pc instr rs1 rs2 bin = execJAL pc instr rs1 rs2 := by
    simp [cpuExec, hop, opLUI, opAUIPC, opJAL]
  have ho : ormuxExec pc instr rs1 rs2 bin =
      { zeroOut with
        valid := true, rdData := (pc + 4) % 2 ^ 32, rdStb := true,
        jAddr := immJ instr, jRel := true, jEn := true } := by
    simp [ormuxExec, hop, opLUI, opAUIPC, opJAL]
  unfold stepAgree
  rw [he, ho]
  simp [execJAL, execInval, idleBus, busMatches, zeroOut, ormuxPcJump]

theorem agreeJALR (pc instr rs1 rs2 : Nat) (bin : BusIn) (hop : iOp instr = opJALR)
    (hval : (cpuExec pc instr rs1 rs2 bin).valid = true) :
    stepAgree pc instr rs1 rs2 bin := by
  have he : cpuExec pc instr rs1 rs2 bin = execJALR pc instr rs1 rs2 := by
    simp [cpuExec, hop, opLUI, opAUIPC, opJAL, opJALR]
  by_cases hf3 : iF3 instr = 0
  · have ho : ormuxExec pc instr rs1 rs2 bin =
        { zeroOut with
          valid := true, rdData := (pc + 4) % 2 ^ 32, rdStb := true,
          jAddr := (rs1 + immI instr) % 2 ^ 32 - (rs1 + immI instr) % 2 ^ 32 % 2,
          jEn := true } := by
      simp [ormuxExec, hop, opLUI, opAUIPC, opJAL, opJALR, hf3]
    have hlt : (rs1 + immI instr) % 2 ^ 32 - (rs1 + immI instr) % 2 ^ 32 % 2 < 2 ^ 32 := by
      have := Nat.mod_lt (rs1 + immI instr) (show 0 < 2 ^ 32 by norm_num)
      omega
    unfold stepAgree
    rw [he, ho]
    simp [execJALR, execInval, idleBus, busMatches, zeroOut, ormuxPcJump, hf3, aluOut,
      Nat.mod_eq_of_lt hlt] <;> omega
  · rw [he] at hval
    unfold execJALR at hval
    rw [if_neg hf3] at hval
    exact absurd hval (by simp [execInval])


theorem agreeBRANCH (pc instr rs1 rs2 : Nat) (bin : BusIn) (hop : iOp instr = opBRANCH)
    (hval : (cpuExec pc instr rs1 rs2 bin).valid = true) :
    stepAgree pc instr rs1 rs2 bin := by
  have he : cpuExec pc instr rs1 rs2 bin = execBRANCH pc instr rs1 rs2 := by
    simp [cpuExec, hop, opLUI, opAUIPC, opJAL, opJALR, opBRANCH]
  have ho : ormuxExec pc instr rs1 rs2 bin = ormuxBranch pc instr rs1 rs2 := by
    simp [ormuxExec, hop, opLUI, opAUIPC, opJAL, opJALR, opBRANCH]
  unfold stepAgree
  rw [he, ho]
  by_cases h0 : iF3 instr = 0
  · simp [execBRANCH, ormuxBranch, h0, execInval, idleBus, busMatches, zeroOut,
      ormuxPcJump, ormuxAlu, aluOut, bitOfBool, decide_eq_beq_zero, aluEqBit] <;>
      split_ifs <;> simp_all
  by_cases h1 : iF3 instr = 1
  · simp [execBRANCH, ormuxBranch, h0, h1, execInval, idleBus, busMatches, zeroOut,
      ormuxPcJump, ormuxAlu, aluOut, bitOfBool, decide_eq_beq_zero, aluEqBit] <;>
      split_ifs <;> simp_all
  by_cases h4 : iF3 instr = 4
  · simp [execBRANCH, ormuxBranch, h0, h1, h4, execInval, idleBus, busMatches, zeroOut,
      ormuxPcJump, ormuxAlu, aluOut, bitOfBool]
  by_cases h5 : iF3 instr = 5
  · simp [execBRANCH, ormuxBranch, h0, h1, h4, h5, execInval, idleBus, busMatches,
      zeroOut, ormuxPcJump, ormuxAlu, aluOut, bitOfBool]
  by_cases h6 : iF3 instr = 6
  · simp [execBRANCH, ormuxBranch, h0, h1, h4, h5, h6, execInval, idleBus, busMatches,
      zeroOut, ormuxPcJump, ormuxAlu, aluOut, bitOfBool]
  by_cases h7 : iF3 instr = 7
  · simp [execBRANCH, ormuxBranch, h0, h1, h4, h5, h6, h7, execInval, idleBus,
      busMatches, zeroOut, ormuxPcJump, ormuxAlu, aluOut, bitOfBool]
  · rw [he] at hval
    simp [execBRANCH, h0, h1, h4, h5, h6, h7, execInval] at hval

theorem shlFact_0 : (0 : Nat) <<< 3 = 0 * 8 := by decide
theorem shlFact_1 : (1 : Nat) <<< 3 = 1 * 8 := by decide
theorem shlFact_2 : (2 : Nat) <<< 3 = 2 * 8 := by decide
theorem shlFact_3 : (3 : Nat) <<< 3 = 3 * 8 := by decide

theorem ormuxLoadData_eq (f3 a datR : Nat)
    (hf : f3 = 0 ∨ f3 = 1 ∨ f3 = 2 ∨ f3 = 4 ∨ f3 = 5) (ha : a < 4) :
    ormuxLoadData f3 a datR = loadData f3 a datR (loadSel f3 a) := by
  rcases hf with rfl | rfl | rfl | rfl | rfl <;> interval_cases a <;>
    simp only [ormuxLoadData, loadData, f3Byte, f3Half, f3Word, f3ByteU, f3HalfU,
      maskFact_0_0, shiftFact_0_0, maskFact_0_1, shiftFact_0_1, maskFact_0_2,
      shiftFact_0_2, maskFact_0_3, shiftFact_0_3, maskFact_1_0, shiftFact_1_0,
      maskFact_1_1, shiftFact_1_1, maskFact_1_2, shiftFact_1_2, maskFact_1_3,
      shiftFact_1_3, maskFact_2_0, shiftFact_2_0, maskFact_2_1, shiftFact_2_1,
      maskFact_2_2, shiftFact_2_2, maskFact_2_3, shiftFact_2_3, maskFact_4_0,
      shiftFact_4_0, maskFact_4_1, shiftFact_4_1, maskFact_4_2, shiftFact_4_2,
      maskFact_4_3, shiftFact_4_3, maskFact_5_0, shiftFact_5_0, maskFact_5_1,
      shiftFact_5_1, maskFact_5_2, shiftFact_5_2, maskFact_5_3, shiftFact_5_3,
      shlFact_0, shlFact_1, shlFact_2, shlFact_3, Nat.reduceEqDiff, reduceIte,
      eq_self_iff_true, if_true, true_or, or_true, false_or, or_false]

theorem lor_shift_eq_add (x y s : Nat) (hx : x < 2 ^ s) :
    x ||| y <<< s = 2 ^ s * y + x := by
  apply Nat.eq_of_testBit_eq
  intro i
  rw [Nat.testBit_lor, Nat.testBit_shiftLeft, Nat.testBit_mul_pow_two_add _ hx]
  by_cases h : s ≤ i
  · have hxi : x.testBit i = false :=
      Nat.testBit_lt_two_pow (lt_of_lt_of_le hx (Nat.pow_le_pow_right (by norm_num) h))
    simp [h, hxi, Nat.not_lt.mpr h]
  · simp [h, Nat.lt_of_not_le h]

theorem ormuxStoreDatW_eq (f3 src : Nat) (hf : f3 = 0 ∨ f3 = 1 ∨ f3 = 2)
    (hs : src < 2 ^ 32) :
    ormuxStoreDatW f3 src = storeDatW f3 src := by
  rcases hf with rfl | rfl | rfl
  · have e1 : (src % 256) ||| (src % 256) <<< 8 = 2 ^ 8 * (src % 256) + src % 256 :=
      lor_shift_eq_add _ _ _ (by omega)
    have e2 : (2 ^ 8 * (src % 256) + src % 256) ||| (src % 256) <<< 16 =
        2 ^ 16 * (src % 256) + (2 ^ 8 * (src % 256) + src % 256) :=
      lor_shift_eq_add _ _ _ (by omega)
    have e3 : (2 ^ 16 * (src % 256) + (2 ^ 8 * (src % 256) + src % 256)) |||
          (src % 256) <<< 24 =
        2 ^ 24 * (src % 256) + (2 ^ 16 * (src % 256) + (2 ^ 8 * (src % 256) + src % 256)) :=
      lor_shift_eq_add _ _ _ (by omega)
    simp only [ormuxStoreDatW, storeDatW, reduceIte, e1, e2, e3]
    omega
  · have e1 : (src % 65536) ||| (src % 65536) <<< 16 =
        2 ^ 16 * (src % 65536) + src % 65536 :=
      lor_shift_eq_add _ _ _ (by omega)
    simp only [ormuxStoreDatW, storeDatW, Nat.reduceEqDiff, reduceIte, e1]
    omega
  · simp only [ormuxStoreDatW, storeDatW, Nat.reduceEqDiff, reduceIte,
      Nat.shiftRight_eq_div_pow]
    omega

theorem agreeLOAD (pc instr rs1 rs2 : Nat) (bin : BusIn) (hop : iOp instr = opLOAD)
    (hpc : pc < 2 ^ 32)
    (hval : (cpuExec pc instr rs1 rs2 bin).valid = true) :
    stepAgree pc instr rs1 rs2 bin := by
  have he : cpuExec pc instr rs1 rs2 bin = execLOAD pc instr rs1 rs2 bin := by
    simp [cpuExec, hop, opLUI, opAUIPC, opJAL, opJALR, opBRANCH, opLOAD]
  have ho : ormuxExec pc instr rs1 rs2 bin = ormuxLoad pc instr rs1 rs2 bin := by
    simp [ormuxExec, hop, opLUI, opAUIPC, opJAL, opJALR, opBRANCH, opLOAD]
  have hf : iF3 instr = 0 ∨ iF3 instr = 1 ∨ iF3 instr = 2 ∨ iF3 instr = 4 ∨
      iF3 instr = 5 := by
    rw [he] at hval
    unfold execLOAD at hval
    dsimp only at hval
    split_ifs at hval <;> simpa using hval
  have hdata : ormuxLoadData (iF3 instr) ((rs1 + immI instr) % 4294967296 % 4) bin.datR =
      loadData (iF3 instr) ((rs1 + immI instr) % 4294967296 % 4) bin.datR
        (loadSel (iF3 instr) ((rs1 + immI instr) % 4294967296 % 4)) :=
    ormuxLoadData_eq _ _ _ hf (Nat.mod_lt _ (by norm_num))
  unfold stepAgree
  rw [he, ho]
  have hsel : (if iF3 instr = f3Byte ∨ iF3 instr = f3ByteU then
        1 <<< ((rs1 + immI instr) % 4294967296 % 4)
      else if iF3 instr = f3Half ∨ iF3 instr = f3HalfU then
        3 <<< ((rs1 + immI instr) % 4294967296 % 4 &&& 2)
      else 15) = loadSel (iF3 instr) ((rs1 + immI instr) % 4294967296 % 4) := rfl
  unfold execLOAD ormuxLoad
  dsimp only
  rw [if_pos hf]
  by_cases hack : bin.ack
  · simp [hack, hsel, hdata, zeroOut, busMatches]
  · simp [hack, hsel, zeroOut, busMatches] <;> omega

theorem agreeSTORE (pc instr rs1 rs2 : Nat) (bin : BusIn) (hop : iOp instr = opSTORE)
    (hpc : pc < 2 ^ 32) (h2 : rs2 < 2 ^ 32)
    (hval : (cpuExec pc instr rs1 rs2 bin).valid = true) :
    stepAgree pc instr rs1 rs2 bin := by
  have he : cpuExec pc instr rs1 rs2 bin = execSTORE pc instr rs1 rs2 bin := by
    simp [cpuExec, hop, opLUI, opAUIPC, opJAL, opJALR, opBRANCH, opLOAD, opSTORE]
  have ho : ormuxExec pc instr rs1 rs2 bin = ormuxStore pc instr rs1 rs2 bin := by
    simp [ormuxExec, hop, opLUI, opAUIPC, opJAL, opJALR, opBRANCH, opLOAD, opSTORE]
  have hf : iF3 instr = 0 ∨ iF3 instr = 1 ∨ iF3 instr = 2 := by
    rw [he] at hval
    unfold execSTORE at hval
    dsimp only at hval
    split_ifs at hval <;> simpa using hval
  have hdw : ormuxStoreDatW (iF3 instr) rs2 = storeDatW (iF3 instr) rs2 :=
    ormuxStoreDatW_eq _ _ hf h2
  unfold stepAgree
  rw [he, ho]
  have hsel : (if iF3 instr = 0 then 1 <<< ((rs1 + immS instr) % 4294967296 % 4)
      else if iF3 instr = 1 then 3 <<< ((rs1 + immS instr) % 4294967296 % 4 &&& 2)
      else 15) = storeSel (iF3 instr) ((rs1 + immS instr) % 4294967296 % 4) := rfl
  unfold execSTORE ormuxStore
  dsimp only
  rw [if_pos hf]
  by_cases hack : bin.ack
  · simp [hack, hsel, hdw, zeroOut, busMatches]
  · simp [hack, hsel, hdw, zeroOut, busMatches] <;> omega


theorem agreeOPIMM (pc instr rs1 rs2 : Nat) (bin : BusIn) (hop : iOp instr = opOPIMM)
    (hval : (cpuExec pc instr rs1 rs2 bin).valid = true) :
    stepAgree pc instr rs1 rs2 bin := by
  have he : cpuExec pc instr rs1 rs2 bin = execOPIMM pc instr rs1 rs2 := by
    simp [cpuExec, hop, opLUI, opAUIPC, opJAL, opJALR, opBRANCH, opLOAD, opSTORE,
      opOPIMM]
  have ho : ormuxExec pc instr rs1 rs2 bin = ormuxOpImm pc instr rs1 rs2 := by
    simp [ormuxExec, hop, opLUI, opAUIPC, opJAL, opJALR, opBRANCH, opLOAD, opSTORE,
      opOPIMM]
  have hm : iRs2 instr % 32 = iRs2 instr := Nat.mod_eq_of_lt (iRs2_lt instr)
  unfold stepAgree
  rw [he, ho]
  by_cases h0 : iF3 instr = 0
  · simp [execOPIMM, ormuxOpImm, h0, execInval, idleBus, busMatches, zeroOut, ormuxAlu,
      aluOut]
  by_cases hc2 : iF3 instr = 2
  · simp [execOPIMM, ormuxOpImm, h0, hc2, execInval, idleBus, busMatches, zeroOut,
      ormuxAlu, aluOut]
  by_cases hc3 : iF3 instr = 3
  · simp [execOPIMM, ormuxOpImm, h0, hc2, hc3, execInval, idleBus, busMatches, zeroOut,
      ormuxAlu, aluOut]
  by_cases hc4 : iF3 instr = 4
  · simp [execOPIMM, ormuxOpImm, h0, hc2, hc3, hc4, execInval, idleBus, busMatches,
      zeroOut, ormuxAlu, aluOut]
  by_cases hc6 : iF3 instr = 6
  · simp [execOPIMM, ormuxOpImm, h0, hc2, hc3, hc4, hc6, execInval, idleBus, busMatches,
      zeroOut, ormuxAlu, aluOut]
  by_cases hc7 : iF3 instr = 7
  · simp [execOPIMM, ormuxOpImm, h0, hc2, hc3, hc4, hc6, hc7, execInval, idleBus,
      busMatches, zeroOut, ormuxAlu, aluOut]
  by_cases hc1 : iF3 instr = 1
  · have hf7 : iF7 instr = 0 := by
      rw [he] at hval
      unfold execOPIMM at hval
      dsimp only at hval
      simpa [hc1] using hval
    simp [execOPIMM, ormuxOpImm, hc1, hf7, execInval, idleBus, busMatches, zeroOut,
      ormuxAlu, aluOut, hm]
  by_cases hc5 : iF3 instr = 5
  · have hf7 : iF7 instr = 0 ∨ iF7 instr = 32 := by
      rw [he] at hval
      unfold execOPIMM at hval
      dsimp only at hval
      simpa [hc1, hc5] using hval
    rcases hf7 with hf7 | hf7
    · simp [execOPIMM, ormuxOpImm, hc1, hc5, hf7, execInval, idleBus, busMatches,
        zeroOut, ormuxAlu, aluOut, hm]
    · simp [execOPIMM, ormuxOpImm, hc1, hc5, hf7, execInval, idleBus, busMatches,
        zeroOut, ormuxAlu, aluOut, hm]
  · exfalso
    have h8 : iF3 instr < 8 := Nat.mod_lt _ (by norm_num)
    omega

theorem agreeOP (pc instr rs1 rs2 : Nat) (bin : BusIn) (hop : iOp instr = opOP)
    (hval : (cpuExec pc instr rs1 rs2 bin).valid = true) :
    stepAgree pc instr rs1 rs2 bin := by
  have he : cpuExec pc instr rs1 rs2 bin = execOP pc instr rs1 rs2 := by
    simp [cpuExec, hop, opLUI, opAUIPC, opJAL, opJALR, opBRANCH, opLOAD, opSTORE,
      opOPIMM, opOP]
  have ho : ormuxExec pc instr rs1 rs2 bin = ormuxOp pc instr rs1 rs2 := by
    simp [ormuxExec, hop, opLUI, opAUIPC, opJAL, opJALR, opBRANCH, opLOAD, opSTORE,
      opOPIMM, opOP]
  unfold stepAgree
  rw [he, ho]
  by_cases h0 : iF3 instr = 0
  · have hf7 : iF7 instr = 0 ∨ iF7 instr = 32 := by
      rw [he] at hval
      unfold execOP at hval
      dsimp only at hval
      simpa [h0] using hval
    rcases hf7 with hf7 | hf7
    · simp [execOP, ormuxOp, h0, hf7, execInval, idleBus, busMatches, zeroOut,
        ormuxAlu, aluOut]
    · simp [execOP, ormuxOp, h0, hf7, execInval, idleBus, busMatches, zeroOut,
        ormuxAlu, aluOut]
  by_cases hc5 : iF3 instr = 5
  · have hf7 : iF7 instr = 0 ∨ iF7 instr = 32 := by
      rw [he] at hval
      unfold execOP at hval
      dsimp only at hval
      simpa [h0, hc5] using hval
    rcases hf7 with hf7 | hf7
    · simp [execOP, ormuxOp, h0, hc5, hf7, execInval, idleBus, busMatches, zeroOut,
        ormuxAlu, aluOut]
    · simp [execOP, ormuxOp, h0, hc5, hf7, execInval, idleBus, busMatches, zeroOut,
        ormuxAlu, aluOut]
  · have hf7 : iF7 instr = 0 := by
      rw [he] at hval
      unfold execOP at hval
      dsimp only at hval
      simpa [h0, hc5] using hval
    by_cases hc1 : iF3 instr = 1
    · simp [execOP, ormuxOp, h0, hc1, hc5, hf7, execInval, idleBus, busMatches,
        zeroOut, ormuxAlu, aluOut]
    by_cases hc2 : iF3 instr = 2
    · simp [execOP, ormuxOp, h0, hc1, hc2, hc5, hf7, execInval, idleBus, busMatches,
        zeroOut, ormuxAlu, aluOut]
    by_cases hc3 : iF3 instr = 3
    · simp [execOP, ormuxOp, h0, hc1, hc2, hc3, hc5, hf7, execInval, idleBus,
        busMatches, zeroOut, ormuxAlu, aluOut]
    by_cases hc4 : iF3 instr = 4
    · simp [execOP, ormuxOp, h0, hc1, hc2, hc3, hc4, hc5, hf7, execInval, idleBus,
        busMatches, zeroOut, ormuxAlu, aluOut]
    by_cases hc6 : iF3 instr = 6
    · simp [execOP, ormuxOp, h0, hc1, hc2, hc3, hc4, hc5, hc6, hf7, execInval,
        idleBus, busMatches, zeroOut, ormuxAlu, aluOut]
    by_cases hc7 : iF3 instr = 7
    · simp [execOP, ormuxOp, h0, hc1, hc2, hc3, hc4, hc5, hc6, hc7, hf7, execInval,
        idleBus, busMatches, zeroOut, ormuxAlu, aluOut]
    · exfalso
      have h8 : iF3 instr < 8 := Nat.mod_lt _ (by norm_num)
      omega

theorem stepAgree_of_valid (pc instr rs1 rs2 : Nat) (bin : BusIn)
    (hpc : pc < 2 ^ 32) (h2 : rs2 < 2 ^ 32)
    (hval : (cpuExec pc instr rs1 rs2 bin).valid = true) (hne : instr ≠ 1048691) :
    stepAgree pc instr rs1 rs2 bin := by
  by_cases hLUI : iOp instr = opLUI
  · exact agreeLUI pc instr rs1 rs2 bin hLUI
  by_cases hAUIPC : iOp instr = opAUIPC
  · exact agreeAUIPC pc instr rs1 rs2 bin hAUIPC
  by_cases hJAL : iOp instr = opJAL
  · exact agreeJAL pc instr rs1 rs2 bin hJAL
  by_cases hJALR : iOp instr = opJALR
  · exact agreeJALR pc instr rs1 rs2 bin hJALR hval
  by_cases hBRANCH : iOp instr = opBRANCH
  · exact agreeBRANCH pc instr rs1 rs2 bin hBRANCH hval
  by_cases hLOAD : iOp instr = opLOAD
  · exact agreeLOAD pc instr rs1 rs2 bin hLOAD hpc hval
  by_cases hSTORE : iOp instr = opSTORE
  · exact agreeSTORE pc instr rs1 rs2 bin hSTORE hpc h2 hval
  by_cases hOPIMM : iOp instr = opOPIMM
  · exact agreeOPIMM pc instr rs1 rs2 bin hOPIMM hval
  by_cases hOP : iOp instr = opOP
  · exact agreeOP pc instr rs1 rs2 bin hOP hval
  · exfalso
    have he : cpuExec pc instr rs1 rs2 bin =
        (if iOp instr = opSYSTEM then execSYSTEM pc instr rs1 rs2
         else execInval pc instr rs1 rs2) := by
      simp [cpuExec, hLUI, hAUIPC, hJAL, hJALR, hBRANCH, hLOAD, hSTORE, hOPIMM, hOP]
    rw [he] at hval
    by_cases hSYS : iOp instr = opSYSTEM
    · rw [if_pos hSYS] at hval
      unfold execSYSTEM at hval
      by_cases h115 : instr = 115
      · rw [if_pos h115] at hval
        simp [execInval] at hval
      · rw [if_neg h115, if_neg hne] at hval
        simp [execInval] at hval
    · rw [if_neg hSYS] at hval
      simp [execInval] at hval


/-- **C8** counterexample: the two CPUs are not equivalent on all programs.
With the latched instruction `0x020002B3` (op = OP, funct7 = 1 — an
unrecognized encoding), the canonical CPU still commits `rs1 + rs2` to `rd`
(x5 becomes 33) while the one-hot-mux CPU leaves the register file untouched
(x5 stays 7); with the latched `EBREAK` the canonical CPU returns to FETCH
(and re-drives the bus) while the one-hot-mux CPU waits in EXECUTE forever. -/
theorem C8_counterexample :
    ((cpuStep ⟨CpuMode.execute, 0, 33555123, 11, 22, fun _ => 7⟩
        ⟨false, 0⟩).1.regs 5 = 33 ∧
      (ormuxStep ⟨CpuMode.execute, 0, 33555123, 11, 22, fun _ => 7⟩
        ⟨false, 0⟩).1.regs 5 = 7) ∧
    ((cpuStep ⟨CpuMode.execute, 0, 1048691, 0, 0, fun _ => 0⟩
        ⟨false, 0⟩).1.mode = CpuMode.fetch ∧
      (ormuxStep ⟨CpuMode.execute, 0, 1048691, 0, 0, fun _ => 0⟩
        ⟨false, 0⟩).1.mode = CpuMode.execute) := by
  decide

/-- **C8** (amended): the one-hot-mux CPU and the canonical two-state CPU
agree step by step — identical FETCH behaviour, and from any EXECUTE state
whose latched instruction is recognized (`is_valid`) and is not `EBREAK`,
identical successor state (pc, latched instruction, rs1/rs2, register file)
and matching bus activity (handshake lines always equal, full bus equality
whenever a transaction is driven; when idle the two differ only in the
meaningless `adr`/`sel` idle values).  The equivalence does not extend to
unrecognized encodings or to `EBREAK` (see the counterexample). -/
theorem C8_cpu_equivalence (s : CpuState) (bin : BusIn)
    (hpc : s.pc < 2 ^ 32) (h2 : s.rs2 < 2 ^ 32)
    (hv : s.mode = CpuMode.execute →
      (cpuExec s.pc s.instr s.rs1 s.rs2 bin).valid = true ∧ s.instr ≠ 1048691) :
    (ormuxStep s bin).1 = (cpuStep s bin).1 ∧
      busMatches (ormuxStep s bin).2 (cpuStep s bin).2 := by
  rcases s with ⟨mode, pc, instr, rs1, rs2, regs⟩
  dsimp only at hpc h2 hv ⊢
  rcases mode with _ | _
  · unfold ormuxStep cpuStep
    by_cases hack : bin.ack <;> simp [hack, busMatches]
  · obtain ⟨hval, hne⟩ := hv rfl
    have hA := stepAgree_of_valid pc instr rs1 rs2 bin hpc h2 hval hne
    unfold stepAgree at hA
    obtain ⟨hstb, hdata, hpcn, hmoden, hbus⟩ := hA
    have hregs : (if (ormuxExec pc instr rs1 rs2 bin).rdStb ∧ iRd instr ≠ 0 then
          Function.update regs (iRd instr)
            ((ormuxExec pc instr rs1 rs2 bin).rdData % 2 ^ 32)
        else regs) =
        (if (cpuExec pc instr rs1 rs2 bin).rdWriteEn ∧ iRd instr ≠ 0 then
          Function.update regs (iRd instr)
            ((cpuExec pc instr rs1 rs2 bin).rdVal % 2 ^ 32)
        else regs) := by
      by_cases hb : (ormuxExec pc instr rs1 rs2 bin).rdStb = true
      · have hb2 : (cpuExec pc instr rs1 rs2 bin).rdWriteEn = true := hstb ▸ hb
        have hd2 := hdata hb
        norm_num at hd2
        simp [hb, hb2, hd2]
      · have hb0 : (ormuxExec pc instr rs1 rs2 bin).rdStb = false :=
          Bool.eq_false_iff.mpr hb
        have hb2 : (cpuExec pc instr rs1 rs2 bin).rdWriteEn = false := hstb ▸ hb0
        simp [hb0, hb2]
    unfold ormuxStep cpuStep
    dsimp only
    refine ⟨?_, hbus⟩
    simp only [CpuState.mk.injEq]
    exact ⟨hmoden, hpcn, trivial, trivial, trivial, hregs⟩

theorem C8_cpu_equivalence_witness :
    (ormuxStep ⟨CpuMode.execute, 0, 691, 11, 22, fun _ => 7⟩ ⟨false, 0⟩).1 =
      (cpuStep ⟨CpuMode.execute, 0, 691, 11, 22, fun _ => 7⟩ ⟨false, 0⟩).1 ∧
    busMatches (ormuxStep ⟨CpuMode.execute, 0, 691, 11, 22, fun _ => 7⟩ ⟨false, 0⟩).2
      (cpuStep ⟨CpuMode.execute, 0, 691, 11, 22, fun _ => 7⟩ ⟨false, 0⟩).2 :=
  C8_cpu_equivalence ⟨CpuMode.execute, 0, 691, 11, 22, fun _ => 7⟩ ⟨false, 0⟩
    (by decide) (by decide) (fun _ => ⟨by decide, by decide⟩)


end Risky
